import Mathlib

/-! # Cook-Torrance BSDF (bsdf_cooktorrance.cpp)

A shallow embedding of the class BSDF_CookTorrance of
src/liblightmetrica/asset/bsdf/bsdf_cooktorrance.cpp.

Conventions of the embedding.

* The scalar type Float is a linearly ordered field `α` (exact arithmetic):
  the definitions run on `ℚ`, the theorems are read on `ℝ`.  In the plain
  definitions a quotient whose divisor is zero has the value the field gives
  it (zero), where the source returns NaN or an infinity; they agree with the
  source, in exact arithmetic, wherever no divisor is zero.  The definitions
  whose name ends in Checked follow the same lines with a partial division:
  a quotient whose divisor is zero has no value (none), and so has everything
  computed from it.  A statement that depends on the value of a quotient
  whose divisor can be zero is made on the Checked definitions.
* The functions of the Math namespace that the file calls but does not define
  (Sqrt, Cos, Sin, Pi, Eps, LocalTan) are the fields of a record `MathFns`
  passed to every function that uses them.
* A stream is the list of the primitive values written to it, in order.
* An output reference parameter is passed in and returned.
-/

namespace LM

/-! ## Vectors, matrices, spectra -/

/-- Two floats (Vec2): the surface coordinates and the sample `u`. -/
structure Vec2 (α : Type) where
  x : α
  y : α
deriving DecidableEq, Repr

/-- Three floats (Vec3). -/
structure Vec3 (α : Type) where
  x : α
  y : α
  z : α
deriving DecidableEq, Repr

/-- A 3x3 matrix (Mat3), stored by columns. -/
structure Mat3 (α : Type) where
  c0 : Vec3 α
  c1 : Vec3 α
  c2 : Vec3 α
deriving DecidableEq, Repr

/-- The 3-band spectrum (SPD). -/
structure SPD (α : Type) where
  v0 : α
  v1 : α
  v2 : α
deriving DecidableEq, Repr

/-- The functions and constants of the Math namespace used by the file and
defined outside it. -/
structure MathFns (α : Type) where
  Sqrt : α → α
  Cos : α → α
  Sin : α → α
  Pi : α
  Eps : α
  LocalTan : Vec3 α → α

section Algebra

variable {α : Type} [LinearOrderedField α]

instance : Neg (Vec3 α) := ⟨fun a => ⟨-a.x, -a.y, -a.z⟩⟩
instance : Add (Vec3 α) := ⟨fun a b => ⟨a.x + b.x, a.y + b.y, a.z + b.z⟩⟩
instance : Sub (Vec3 α) := ⟨fun a b => ⟨a.x - b.x, a.y - b.y, a.z - b.z⟩⟩
instance : HMul α (Vec3 α) (Vec3 α) := ⟨fun s a => ⟨s * a.x, s * a.y, s * a.z⟩⟩
instance : HDiv (Vec3 α) α (Vec3 α) := ⟨fun a s => ⟨a.x / s, a.y / s, a.z / s⟩⟩

/-- Matrix times column vector. -/
instance : HMul (Mat3 α) (Vec3 α) (Vec3 α) :=
  ⟨fun m v => ⟨m.c0.x * v.x + m.c1.x * v.y + m.c2.x * v.z,
               m.c0.y * v.x + m.c1.y * v.y + m.c2.y * v.z,
               m.c0.z * v.x + m.c1.z * v.y + m.c2.z * v.z⟩⟩

instance : Add (SPD α) := ⟨fun a b => ⟨a.v0 + b.v0, a.v1 + b.v1, a.v2 + b.v2⟩⟩
instance : Sub (SPD α) := ⟨fun a b => ⟨a.v0 - b.v0, a.v1 - b.v1, a.v2 - b.v2⟩⟩
instance : Mul (SPD α) := ⟨fun a b => ⟨a.v0 * b.v0, a.v1 * b.v1, a.v2 * b.v2⟩⟩
instance : Div (SPD α) := ⟨fun a b => ⟨a.v0 / b.v0, a.v1 / b.v1, a.v2 / b.v2⟩⟩
instance : HMul (SPD α) α (SPD α) := ⟨fun a s => ⟨a.v0 * s, a.v1 * s, a.v2 * s⟩⟩
instance : HDiv (SPD α) α (SPD α) := ⟨fun a s => ⟨a.v0 / s, a.v1 / s, a.v2 / s⟩⟩
instance : HAdd (SPD α) α (SPD α) := ⟨fun a s => ⟨a.v0 + s, a.v1 + s, a.v2 + s⟩⟩

/-- Modelled from the spec: the constructor SPD(Float) of spectrum.h, the
spectrum with the same value in its three bands. -/
def SPD.const (s : α) : SPD α := ⟨s, s, s⟩

/-- Modelled from the spec: the default constructor SPD() of spectrum.h, the
zero spectrum. -/
def SPD.zero : SPD α := ⟨0, 0, 0⟩

/-- Modelled from the spec: SPD::FromRGB of spectrum.h, the 3-band spectrum
of an RGB triple. -/
def SPD.FromRGB (c : Vec3 α) : SPD α := ⟨c.x, c.y, c.z⟩

/-- Modelled from the spec: Math::Dot of math.h. -/
def Math.Dot (a b : Vec3 α) : α := a.x * b.x + a.y * b.y + a.z * b.z

/-- Modelled from the spec: Math::LocalCos of math.h, the cosine against the
local normal, which is the local z component. -/
def Math.LocalCos (v : Vec3 α) : α := v.z

/-- Modelled from the spec: Math::Length of math.h. -/
def Math.Length (m : MathFns α) (v : Vec3 α) : α := m.Sqrt (Math.Dot v v)

/-- Modelled from the spec: Math::Normalize of math.h. -/
def Math.Normalize (m : MathFns α) (v : Vec3 α) : Vec3 α := v / Math.Length m v

end Algebra

/-! ## The collaborators of the model -/

/-- Modelled from the spec: the part of Texture (texture.h) that the file
uses, its asset index and its value at surface coordinates. -/
structure Texture (α : Type) where
  Index : Int
  Evaluate : Vec2 α → Vec3 α

/-- Modelled from the spec: Primitive (primitive.h); the file passes the
pointer on and reads nothing of it. -/
structure Primitive where
  id : Nat
deriving DecidableEq, Repr

/-- Modelled from the spec: the part of Assets (assets.h) that the file uses,
the asset of an index and the asset of an identifier and a type name, for a
primitive (a null pointer is none). -/
structure Assets (α : Type) where
  GetByIndex : Int → Option (Texture α)
  AssetByIDAndType : String → String → Option Primitive → Option (Texture α)

/-- Modelled from the spec: the value a property node holds, as the file
reads it: a string, an RGB triple or a scalar. -/
inductive PropValue (α : Type) where
  | str (s : String)
  | vec3 (v : Vec3 α)
  | float (x : α)
deriving DecidableEq, Repr

/-- Modelled from the spec: PropertyNode (property.h), the parsed parameters
of the scene description: the child of a name, none when it is absent. -/
structure PropertyNode (α : Type) where
  Child : String → Option (PropValue α)

/-- Modelled from the spec: PropertyNode::ChildAs for a string, which writes
the child into its output argument and leaves it alone otherwise. -/
def PropertyNode.ChildAsString {α : Type} (prop : PropertyNode α) (name : String)
    (out : String) : String :=
  match prop.Child name with
  | some (PropValue.str s) => s
  | _ => out

/-- Modelled from the spec: PropertyNode::ChildAs<Vec3> with a default, the
default when the child is absent. -/
def PropertyNode.ChildAsVec3 {α : Type} (prop : PropertyNode α) (name : String)
    (default : Vec3 α) : Vec3 α :=
  match prop.Child name with
  | some (PropValue.vec3 v) => v
  | _ => default

/-- Modelled from the spec: PropertyNode::ChildAs<Float> with a default, the
default when the child is absent. -/
def PropertyNode.ChildAsFloat {α : Type} (prop : PropertyNode α) (name : String)
    (default : α) : α :=
  match prop.Child name with
  | some (PropValue.float x) => x
  | _ => default

/-- Modelled from the spec: the fields of SurfaceGeometry (surfacegeometry.h)
that the file reads. -/
structure SurfaceGeometry (α : Type) where
  ToWorld : Mat3 α
  ToLocal : Mat3 α
  uv : Vec2 α

/-- Modelled from the spec: TransportDirection of bsdf.h. -/
inductive TransportDirection where
  | LE
  | EL
deriving DecidableEq, Repr

/-- Modelled from the spec: PDFMeasure, the measure of a density; the two
measures the specification names. -/
inductive PDFMeasure where
  | SolidAngle
  | ProjectedSolidAngle
deriving DecidableEq, Repr

/-- Modelled from the spec: PDFVal, a density with its measure. -/
structure PDFVal (α : Type) where
  measure : PDFMeasure
  v : α
deriving DecidableEq, Repr

/-! ## Streams of the portable binary archive -/

/-- One primitive value of the archive. -/
inductive Prim (α : Type) where
  | float (x : α)
  | int (n : Int)
deriving DecidableEq, Repr

/-- Modelled from the spec: the archive writes an SPD as its three floats. -/
def writeSPD {α : Type} (s : SPD α) : List (Prim α) :=
  [Prim.float s.v0, Prim.float s.v1, Prim.float s.v2]

/-- Modelled from the spec: the archive reads an SPD as three floats; a
stream that does not hold them (the archive throws) gives none. -/
def readSPD {α : Type} : List (Prim α) → Option (SPD α × List (Prim α))
  | Prim.float a :: Prim.float b :: Prim.float c :: rest => some (⟨a, b, c⟩, rest)
  | _ => none

/-- Modelled from the spec: the archive reads one int. -/
def readInt {α : Type} : List (Prim α) → Option (Int × List (Prim α))
  | Prim.int n :: rest => some (n, rest)
  | _ => none

/-- Modelled from the spec: the archive reads one float. -/
def readFloat {α : Type} : List (Prim α) → Option (α × List (Prim α))
  | Prim.float x :: rest => some (x, rest)
  | _ => none

/-! ## The model -/

/-- The data members of BSDF_CookTorrance (lines 297-301). -/
structure BSDF_CookTorrance (α : Type) where
  R_ : SPD α
  texR_ : Option (Texture α)
  eta_ : SPD α
  k_ : SPD α
  roughness_ : α

namespace BSDF_CookTorrance

variable {α : Type} [LinearOrderedField α]

/-- Serialize (lines 132-140): the result and the stream after the call. -/
def Serialize (self : BSDF_CookTorrance α) (stream : List (Prim α)) :
    Bool × List (Prim α) :=
  let texID : Int := match self.texR_ with
    | some t => t.Index
    | none => -1
  (true, stream ++ (writeSPD self.R_ ++ [Prim.int texID] ++ writeSPD self.eta_
    ++ [Prim.float self.roughness_]))

/-- Deserialize (lines 142-155): the result, the instance and the stream
after the call; none when the archive or the lookup of the key throws. -/
def Deserialize (self : BSDF_CookTorrance α) (stream : List (Prim α))
    (userdata : String → Option (Assets α)) :
    Option (Bool × BSDF_CookTorrance α × List (Prim α)) :=
  match readSPD stream with
  | none => none
  | some (R, s1) =>
    match readInt s1 with
    | none => none
    | some (texID, s2) =>
      match readSPD s2 with
      | none => none
      | some (eta, s3) =>
        match readFloat s3 with
        | none => none
        | some (roughness, s4) =>
          let self1 := { self with R_ := R, eta_ := eta, roughness_ := roughness }
          if texID ≥ 0 then
            match userdata "assets" with
            | none => none
            | some assets => some (true, { self1 with texR_ := assets.GetByIndex texID }, s4)
          else
            some (true, self1, s4)

/-- The texture index that Serialize stores for an instance (line 136). -/
def texIndex (self : BSDF_CookTorrance α) : Int :=
  match self.texR_ with
  | some t => t.Index
  | none => -1

/-- IsDeltaDirection (lines 122-125). -/
def IsDeltaDirection (_self : BSDF_CookTorrance α) (_type : Int) : Bool := false

/-- IsDeltaPosition (lines 127-130). -/
def IsDeltaPosition (_self : BSDF_CookTorrance α) (_type : Int) : Bool := false

/-- EvaluateGGX (lines 187-198). -/
def EvaluateGGX (m : MathFns α) (self : BSDF_CookTorrance α) (H : Vec3 α) : α :=
  let cosH := Math.LocalCos H
  let tanH := m.LocalTan H
  if cosH ≤ 0 then 0
  else
    let t1 := self.roughness_ * self.roughness_
    let t2 :=
      let t := self.roughness_ * self.roughness_ + tanH * tanH
      m.Pi * cosH * cosH * cosH * cosH * t * t
    t1 / t2

/-- The local function ToOpenOpen of SampleGGX (line 203). -/
def ToOpenOpen (m : MathFns α) (u : α) : α := (1 - 2 * m.Eps) * u + m.Eps

/-- The local function ToOpenClosed of SampleGGX (line 205). -/
def ToOpenClosed (m : MathFns α) (u : α) : α := (1 - m.Eps) * u + m.Eps

/-- SampleGGX (lines 200-225). -/
def SampleGGX (m : MathFns α) (self : BSDF_CookTorrance α) (u : Vec2 α) : Vec3 α :=
  let u0 := ToOpenClosed m u.x
  let u1 := ToOpenOpen m u.y
  let cosTheta :=
    let v1 := m.Sqrt (1 - u0)
    let v2 := m.Sqrt (1 - (1 - self.roughness_ * self.roughness_) * u0)
    v1 / v2
  let sinTheta :=
    let v1 := m.Sqrt u0
    let v2 := m.Sqrt (1 - (1 - self.roughness_ * self.roughness_) * u0)
    self.roughness_ * (v1 / v2)
  let phi := m.Pi * (2 * u1 - 1)
  ⟨sinTheta * m.Cos phi, sinTheta * m.Sin phi, cosTheta⟩

/-- EvaluateNormalDist (lines 167-174), with LM_COOKTORRANCE_USE_GGX set to 1
(line 36). -/
def EvaluateNormalDist (m : MathFns α) (self : BSDF_CookTorrance α) (H : Vec3 α) : α :=
  EvaluateGGX m self H

/-- SampleNormalDist (lines 176-183), with LM_COOKTORRANCE_USE_GGX set to 1. -/
def SampleNormalDist (m : MathFns α) (self : BSDF_CookTorrance α) (u : Vec2 α) : Vec3 α :=
  SampleGGX m self u

/-- EvalauteShadowMaskingFunc (lines 276-284). -/
def EvalauteShadowMaskingFunc (wi wo H : Vec3 α) : α :=
  let n_dot_H := Math.LocalCos H
  let n_dot_wo := Math.LocalCos wo
  let n_dot_wi := Math.LocalCos wi
  let wo_dot_H := |Math.Dot wo H|
  let wi_dot_H := |Math.Dot wo H|
  min 1 (min (2 * n_dot_H * n_dot_wo / wo_dot_H) (2 * n_dot_H * n_dot_wi / wi_dot_H))

/-- EvaluateFrConductor (lines 286-293). -/
def EvaluateFrConductor (self : BSDF_CookTorrance α) (cosThetaI : α) : SPD α :=
  let tmp := (self.eta_ * self.eta_ + self.k_ * self.k_) * (cosThetaI * cosThetaI)
  let rParl2 := (tmp - (self.eta_ * SPD.const (2 * cosThetaI)) + SPD.const 1) /
    (tmp + (self.eta_ * SPD.const (2 * cosThetaI)) + SPD.const 1)
  let tmpF := self.eta_ * self.eta_ + self.k_ * self.k_
  let rPerp2 := (tmpF - (self.eta_ * (2 * cosThetaI)) + cosThetaI * cosThetaI) /
    (tmpF + (self.eta_ * (2 * cosThetaI)) + cosThetaI * cosThetaI)
  (rParl2 + rPerp2) * (1 / 2 : α)

/-- SampleDirection (lines 73-89).  The reference parameter wo is passed in;
the result is whether the assignment of line 88 was reached, and wo after the
call. -/
def SampleDirection (m : MathFns α) (self : BSDF_CookTorrance α) (u : Vec2 α)
    (_uComp : α) (_queryType : Int) (geom : SurfaceGeometry α) (wi wo : Vec3 α) :
    Bool × Vec3 α :=
  let localWi := geom.ToLocal * wi
  if Math.LocalCos localWi ≤ 0 then (false, wo)
  else
    let H := SampleNormalDist m self u
    let localWo := -localWi - (2 * Math.Dot (-localWi) H) * H
    if Math.LocalCos localWo ≤ 0 then (false, wo)
    else (true, geom.ToWorld * localWo)

/-- EvaluateDirectionPDF (lines 91-103). -/
def EvaluateDirectionPDF (m : MathFns α) (self : BSDF_CookTorrance α)
    (geom : SurfaceGeometry α) (_queryType : Int) (wi wo : Vec3 α) (_evalDelta : Bool) :
    PDFVal α :=
  let localWi := geom.ToLocal * wi
  let localWo := geom.ToLocal * wo
  if Math.LocalCos localWi ≤ 0 ∨ Math.LocalCos localWo ≤ 0 then
    ⟨PDFMeasure.ProjectedSolidAngle, 0⟩
  else
    let H := Math.Normalize m (localWi + localWo)
    let D := EvaluateNormalDist m self H
    ⟨PDFMeasure.ProjectedSolidAngle,
      D * Math.LocalCos H / (4 * Math.Dot localWo H) / Math.LocalCos localWo⟩

/-- EvaluateDirection (lines 105-120).  The function
BSDFUtils::ShadingNormalCorrection of bsdfutils.h is the parameter
ShadingNormalCorrection. -/
def EvaluateDirection (m : MathFns α)
    (ShadingNormalCorrection :
      SurfaceGeometry α → Vec3 α → Vec3 α → TransportDirection → α)
    (self : BSDF_CookTorrance α) (geom : SurfaceGeometry α) (_types : Int)
    (wi wo : Vec3 α) (transDir : TransportDirection) (_evalDelta : Bool) : SPD α :=
  let localWi := geom.ToLocal * wi
  let localWo := geom.ToLocal * wo
  if Math.LocalCos localWi ≤ 0 ∨ Math.LocalCos localWo ≤ 0 then SPD.zero
  else
    let H := Math.Normalize m (localWi + localWo)
    let D := EvaluateNormalDist m self H
    let G := EvalauteShadowMaskingFunc localWi localWo H
    let F := EvaluateFrConductor self (Math.Dot localWi H)
    let R := match self.texR_ with
      | some t => SPD.FromRGB (t.Evaluate geom.uv)
      | none => self.R_
    R * D * G * F / (4 * Math.LocalCos localWi) / Math.LocalCos localWo *
      ShadingNormalCorrection geom wi wo transDir

/-- Load (lines 48-66): the result and the instance after the call.  The
default constructor Vec3() is the zero vector. -/
def Load (self : BSDF_CookTorrance α) (prop : PropertyNode α) (assets : Assets α)
    (primitive : Option Primitive) : Bool × BSDF_CookTorrance α :=
  let self1 :=
    if (prop.Child "TexR").isSome then
      let id := prop.ChildAsString "TexR" ""
      { self with texR_ := assets.AssetByIDAndType id "texture" primitive }
    else
      { self with R_ := SPD.FromRGB (prop.ChildAsVec3 "R" ⟨0, 0, 0⟩) }
  let self2 := { self1 with
    eta_ := SPD.FromRGB
      (prop.ChildAsVec3 "eta" ⟨140000 / 1000000, 129000 / 1000000, 158500 / 1000000⟩) }
  let self3 := { self2 with
    k_ := SPD.FromRGB
      (prop.ChildAsVec3 "k" ⟨4586250 / 1000000, 3348125 / 1000000, 2329375 / 1000000⟩) }
  let self4 := { self3 with roughness_ := prop.ChildAsFloat "roughness" (1 / 10) }
  (true, self4)

/-- Glossiness (lines 157-160). -/
def Glossiness (self : BSDF_CookTorrance α) : α := self.roughness_

/-- Reflectance (line 162). -/
def Reflectance (self : BSDF_CookTorrance α) : SPD α := self.R_

/-- Reflectance2 (line 163): the texture value when a texture is bound, the
constant otherwise. -/
def Reflectance2 (self : BSDF_CookTorrance α) (geom : SurfaceGeometry α) : SPD α :=
  match self.texR_ with
  | some t => SPD.FromRGB (t.Evaluate geom.uv)
  | none => self.R_

end BSDF_CookTorrance

/-! ## Predicates of the statements -/

section Predicates

variable {α : Type} [LinearOrderedField α]

/-- A spectrum is non-negative in every band. -/
def SPD.Nonneg (s : SPD α) : Prop := 0 ≤ s.v0 ∧ 0 ≤ s.v1 ∧ 0 ≤ s.v2

/-- Modelled from the spec: the local frame is orthonormal, ToLocal is the
transpose of ToWorld and the columns of ToWorld are unit and mutually
orthogonal, and so are the columns of ToLocal. -/
def SurfaceGeometry.Orthonormal (g : SurfaceGeometry α) : Prop :=
  g.ToLocal = ⟨⟨g.ToWorld.c0.x, g.ToWorld.c1.x, g.ToWorld.c2.x⟩,
               ⟨g.ToWorld.c0.y, g.ToWorld.c1.y, g.ToWorld.c2.y⟩,
               ⟨g.ToWorld.c0.z, g.ToWorld.c1.z, g.ToWorld.c2.z⟩⟩ ∧
  Math.Dot g.ToWorld.c0 g.ToWorld.c0 = 1 ∧ Math.Dot g.ToWorld.c1 g.ToWorld.c1 = 1 ∧
  Math.Dot g.ToWorld.c2 g.ToWorld.c2 = 1 ∧ Math.Dot g.ToWorld.c0 g.ToWorld.c1 = 0 ∧
  Math.Dot g.ToWorld.c0 g.ToWorld.c2 = 0 ∧ Math.Dot g.ToWorld.c1 g.ToWorld.c2 = 0 ∧
  Math.Dot g.ToLocal.c0 g.ToLocal.c0 = 1 ∧ Math.Dot g.ToLocal.c1 g.ToLocal.c1 = 1 ∧
  Math.Dot g.ToLocal.c2 g.ToLocal.c2 = 1 ∧ Math.Dot g.ToLocal.c0 g.ToLocal.c1 = 0 ∧
  Math.Dot g.ToLocal.c0 g.ToLocal.c2 = 0 ∧ Math.Dot g.ToLocal.c1 g.ToLocal.c2 = 0

/-- Modelled from the spec: Math::LocalTan of math.h, the tangent of the
polar angle: the sine, which is the root of one minus the squared cosine, over
the cosine. -/
def Math.LocalTan (sqrt : α → α) (v : Vec3 α) : α := sqrt (1 - v.z * v.z) / v.z

/-- The Math namespace over a field, from its square root, cosine, sine, pi
and epsilon. -/
def MathFns.ofFns (sqrt cos sin : α → α) (pi eps : α) : MathFns α where
  Sqrt := sqrt
  Cos := cos
  Sin := sin
  Pi := pi
  Eps := eps
  LocalTan := Math.LocalTan sqrt

/-- The frame whose local axes are the world axes. -/
def identityFrame : SurfaceGeometry α where
  ToWorld := ⟨⟨1, 0, 0⟩, ⟨0, 1, 0⟩, ⟨0, 0, 1⟩⟩
  ToLocal := ⟨⟨1, 0, 0⟩, ⟨0, 1, 0⟩, ⟨0, 0, 1⟩⟩
  uv := ⟨0, 0⟩

/-- An instance with unit reflectance, eta = 1, k = 0 and roughness 1. -/
def unitInstance : BSDF_CookTorrance α where
  R_ := ⟨1, 1, 1⟩
  texR_ := none
  eta_ := ⟨1, 1, 1⟩
  k_ := ⟨0, 0, 0⟩
  roughness_ := 1

end Predicates

/-! ## The snapshot layout of the specification, and concrete instances -/

/-- The snapshot layout as the specification words it: R, the texture index,
eta, k, roughness. -/
def specLayout {α : Type} (self : BSDF_CookTorrance α) : List (Prim α) :=
  writeSPD self.R_ ++ [Prim.int (match self.texR_ with
    | some t => t.Index
    | none => -1)] ++ writeSPD self.eta_ ++ writeSPD self.k_ ++ [Prim.float self.roughness_]

/-- An instance with the conductor preset of Load (lines 61-63), a constant
reflectance and no texture. -/
def presetInstance : BSDF_CookTorrance ℚ where
  R_ := ⟨1 / 2, 1 / 2, 1 / 2⟩
  texR_ := none
  eta_ := ⟨140000 / 1000000, 129000 / 1000000, 158500 / 1000000⟩
  k_ := ⟨4586250 / 1000000, 3348125 / 1000000, 2329375 / 1000000⟩
  roughness_ := 1 / 10

/-- A fresh instance: no texture (line 298), default-constructed spectra. -/
def freshInstance : BSDF_CookTorrance ℚ where
  R_ := SPD.zero
  texR_ := none
  eta_ := SPD.zero
  k_ := SPD.zero
  roughness_ := 0

/-- A stub asset resolver: the key assets is present, its registry returns
for every index a texture with that index. -/
def stubUserdata : String → Option (Assets ℚ) := fun key =>
  if key = "assets" then
    some ⟨fun i => some ⟨i, fun _ => ⟨0, 0, 0⟩⟩, fun _ _ _ => none⟩
  else none

/-- An instance with a texture bound, of index 3 and value (1, 1, 1). -/
def texturedInstance : BSDF_CookTorrance ℚ where
  R_ := ⟨1 / 4, 1 / 4, 1 / 4⟩
  texR_ := some ⟨3, fun _ => ⟨1, 1, 1⟩⟩
  eta_ := SPD.zero
  k_ := SPD.zero
  roughness_ := 1 / 2

/-- Parameters that give the roughness 0 and nothing else. -/
def zeroRoughnessParams : PropertyNode ℚ where
  Child := fun name => if name = "roughness" then some (PropValue.float 0) else none

/-- Parameters that name a texture, give a constant reflectance beside it and
nothing else. -/
def texturedParams : PropertyNode ℚ where
  Child := fun name =>
    if name = "TexR" then some (PropValue.str "wood")
    else if name = "R" then some (PropValue.vec3 ⟨1, 0, 0⟩)
    else none

/-- A registry that resolves the texture identifier wood to a texture of
index 7, and no other. -/
def woodAssets : Assets ℚ where
  GetByIndex := fun _ => none
  AssetByIDAndType := fun id type _ =>
    if id = "wood" ∧ type = "texture" then some ⟨7, fun _ => ⟨1 / 3, 1 / 3, 1 / 3⟩⟩ else none

/-! ## Formulas as the specification words them -/

section SpecFormulas

variable {α : Type} [LinearOrderedField α]

/-- The value of EvaluateDirection as the specification words it, with the
Fresnel term taken at the cosine of wi against the local normal: zero outside
the hemisphere, otherwise R D(H) G(wi,wo,H) F(cos theta_i) over
4 cos theta_i cos theta_o, times the shading-normal correction factor. -/
def specEvaluateDirection (m : MathFns α)
    (ShadingNormalCorrection :
      SurfaceGeometry α → Vec3 α → Vec3 α → TransportDirection → α)
    (self : BSDF_CookTorrance α) (geom : SurfaceGeometry α)
    (wi wo : Vec3 α) (transDir : TransportDirection) : SPD α :=
  let wi_l := geom.ToLocal * wi
  let wo_l := geom.ToLocal * wo
  if wi_l.z ≤ 0 ∨ wo_l.z ≤ 0 then SPD.zero
  else
    let H := Math.Normalize m (wi_l + wo_l)
    let cosThetaI := wi_l.z
    let cosThetaO := wo_l.z
    BSDF_CookTorrance.Reflectance2 self geom * BSDF_CookTorrance.EvaluateNormalDist m self H *
      BSDF_CookTorrance.EvalauteShadowMaskingFunc wi_l wo_l H *
      BSDF_CookTorrance.EvaluateFrConductor self cosThetaI /
      (4 * cosThetaI * cosThetaO) * ShadingNormalCorrection geom wi wo transDir

/-- The shadow-masking term as the specification words it:
min(1, 2 (n.H)(n.wo)/(wo.H), 2 (n.H)(n.wi)/(wi.H)), n the local z axis. -/
def specShadowMasking (wi wo H : Vec3 α) : α :=
  min 1 (min (2 * H.z * wo.z / Math.Dot wo H) (2 * H.z * wi.z / Math.Dot wi H))

/-- One band of the Fresnel conductor reflectance as the specification words
it: the mean of the parallel and perpendicular squared amplitudes. -/
def specFresnel (eta k cosThetaI : α) : α :=
  let rpar2 := ((eta ^ 2 + k ^ 2) * cosThetaI ^ 2 - 2 * eta * cosThetaI + 1) /
    ((eta ^ 2 + k ^ 2) * cosThetaI ^ 2 + 2 * eta * cosThetaI + 1)
  let rperp2 := ((eta ^ 2 + k ^ 2) - 2 * eta * cosThetaI + cosThetaI ^ 2) /
    ((eta ^ 2 + k ^ 2) + 2 * eta * cosThetaI + cosThetaI ^ 2)
  (rpar2 + rperp2) / 2

end SpecFormulas

/-! ## The divisors of the evaluation -/

section Divisors

variable {α : Type} [LinearOrderedField α]

/-- The divisor t2 of EvaluateGGX (lines 193-197). -/
def GGXDivisor (m : MathFns α) (self : BSDF_CookTorrance α) (H : Vec3 α) : α :=
  let cosH := Math.LocalCos H
  let tanH := m.LocalTan H
  let t := self.roughness_ * self.roughness_ + tanH * tanH
  m.Pi * cosH * cosH * cosH * cosH * t * t

/-- The divisor of rParl2 in EvaluateFrConductor (line 289). -/
def FrParlDivisor (self : BSDF_CookTorrance α) (cosThetaI : α) : SPD α :=
  let tmp := (self.eta_ * self.eta_ + self.k_ * self.k_) * (cosThetaI * cosThetaI)
  tmp + (self.eta_ * SPD.const (2 * cosThetaI)) + SPD.const 1

/-- The divisor of rPerp2 in EvaluateFrConductor (line 291). -/
def FrPerpDivisor (self : BSDF_CookTorrance α) (cosThetaI : α) : SPD α :=
  let tmpF := self.eta_ * self.eta_ + self.k_ * self.k_
  tmpF + (self.eta_ * (2 * cosThetaI)) + cosThetaI * cosThetaI

end Divisors

/-! ## Evaluation with a partial division -/

section Checked

variable {α : Type} [LinearOrderedField α]

/-- The quotient of the source read in exact arithmetic: no value when the
divisor is zero (the source returns NaN or an infinity there). -/
def checkedDiv (a b : α) : Option α := if b = 0 then none else some (a / b)

namespace BSDF_CookTorrance

/-- EvaluateGGX (lines 187-198) with the partial division. -/
def EvaluateGGXChecked (m : MathFns α) (self : BSDF_CookTorrance α) (H : Vec3 α) :
    Option α :=
  let cosH := Math.LocalCos H
  let tanH := m.LocalTan H
  if cosH ≤ 0 then some 0
  else
    let t1 := self.roughness_ * self.roughness_
    let t2 :=
      let t := self.roughness_ * self.roughness_ + tanH * tanH
      m.Pi * cosH * cosH * cosH * cosH * t * t
    checkedDiv t1 t2

end BSDF_CookTorrance

/-- An instance with unit reflectance, eta = 1, k = 0 and roughness 0, the
roughness that Load stores for the parameter 0. -/
def zeroRoughnessInstance : BSDF_CookTorrance α where
  R_ := ⟨1, 1, 1⟩
  texR_ := none
  eta_ := ⟨1, 1, 1⟩
  k_ := ⟨0, 0, 0⟩
  roughness_ := 0

end Checked

/-- A registry that resolves nothing: every lookup returns a null pointer. -/
def emptyAssets : Assets ℚ where
  GetByIndex := fun _ => none
  AssetByIDAndType := fun _ _ _ => none

end LM

/-! # Theorems -/

namespace LM

open BSDF_CookTorrance

/-! ## Components of the vector and spectrum operations -/

section Components

set_option linter.unusedSectionVars false

variable {α : Type} [LinearOrderedField α]

@[simp] theorem Vec3.neg_x (a : Vec3 α) : (-a).x = -a.x := rfl
@[simp] theorem Vec3.neg_y (a : Vec3 α) : (-a).y = -a.y := rfl
@[simp] theorem Vec3.neg_z (a : Vec3 α) : (-a).z = -a.z := rfl
@[simp] theorem Vec3.add_x (a b : Vec3 α) : (a + b).x = a.x + b.x := rfl
@[simp] theorem Vec3.add_y (a b : Vec3 α) : (a + b).y = a.y + b.y := rfl
@[simp] theorem Vec3.add_z (a b : Vec3 α) : (a + b).z = a.z + b.z := rfl
@[simp] theorem Vec3.sub_x (a b : Vec3 α) : (a - b).x = a.x - b.x := rfl
@[simp] theorem Vec3.sub_y (a b : Vec3 α) : (a - b).y = a.y - b.y := rfl
@[simp] theorem Vec3.sub_z (a b : Vec3 α) : (a - b).z = a.z - b.z := rfl
@[simp] theorem Vec3.smul_x (s : α) (a : Vec3 α) : (s * a).x = s * a.x := rfl
@[simp] theorem Vec3.smul_y (s : α) (a : Vec3 α) : (s * a).y = s * a.y := rfl
@[simp] theorem Vec3.smul_z (s : α) (a : Vec3 α) : (s * a).z = s * a.z := rfl
@[simp] theorem Vec3.div_x (a : Vec3 α) (s : α) : (a / s).x = a.x / s := rfl
@[simp] theorem Vec3.div_y (a : Vec3 α) (s : α) : (a / s).y = a.y / s := rfl
@[simp] theorem Vec3.div_z (a : Vec3 α) (s : α) : (a / s).z = a.z / s := rfl

@[simp] theorem Mat3.mulVec_x (m : Mat3 α) (v : Vec3 α) :
    (m * v).x = m.c0.x * v.x + m.c1.x * v.y + m.c2.x * v.z := rfl
@[simp] theorem Mat3.mulVec_y (m : Mat3 α) (v : Vec3 α) :
    (m * v).y = m.c0.y * v.x + m.c1.y * v.y + m.c2.y * v.z := rfl
@[simp] theorem Mat3.mulVec_z (m : Mat3 α) (v : Vec3 α) :
    (m * v).z = m.c0.z * v.x + m.c1.z * v.y + m.c2.z * v.z := rfl

@[simp] theorem SPD.add_v0 (a b : SPD α) : (a + b).v0 = a.v0 + b.v0 := rfl
@[simp] theorem SPD.add_v1 (a b : SPD α) : (a + b).v1 = a.v1 + b.v1 := rfl
@[simp] theorem SPD.add_v2 (a b : SPD α) : (a + b).v2 = a.v2 + b.v2 := rfl
@[simp] theorem SPD.sub_v0 (a b : SPD α) : (a - b).v0 = a.v0 - b.v0 := rfl
@[simp] theorem SPD.sub_v1 (a b : SPD α) : (a - b).v1 = a.v1 - b.v1 := rfl
@[simp] theorem SPD.sub_v2 (a b : SPD α) : (a - b).v2 = a.v2 - b.v2 := rfl
@[simp] theorem SPD.mul_v0 (a b : SPD α) : (a * b).v0 = a.v0 * b.v0 := rfl
@[simp] theorem SPD.mul_v1 (a b : SPD α) : (a * b).v1 = a.v1 * b.v1 := rfl
@[simp] theorem SPD.mul_v2 (a b : SPD α) : (a * b).v2 = a.v2 * b.v2 := rfl
@[simp] theorem SPD.div_v0 (a b : SPD α) : (a / b).v0 = a.v0 / b.v0 := rfl
@[simp] theorem SPD.div_v1 (a b : SPD α) : (a / b).v1 = a.v1 / b.v1 := rfl
@[simp] theorem SPD.div_v2 (a b : SPD α) : (a / b).v2 = a.v2 / b.v2 := rfl
@[simp] theorem SPD.smul_v0 (a : SPD α) (s : α) : (a * s).v0 = a.v0 * s := rfl
@[simp] theorem SPD.smul_v1 (a : SPD α) (s : α) : (a * s).v1 = a.v1 * s := rfl
@[simp] theorem SPD.smul_v2 (a : SPD α) (s : α) : (a * s).v2 = a.v2 * s := rfl
@[simp] theorem SPD.sdiv_v0 (a : SPD α) (s : α) : (a / s).v0 = a.v0 / s := rfl
@[simp] theorem SPD.sdiv_v1 (a : SPD α) (s : α) : (a / s).v1 = a.v1 / s := rfl
@[simp] theorem SPD.sdiv_v2 (a : SPD α) (s : α) : (a / s).v2 = a.v2 / s := rfl
@[simp] theorem SPD.sadd_v0 (a : SPD α) (s : α) : (a + s).v0 = a.v0 + s := rfl
@[simp] theorem SPD.sadd_v1 (a : SPD α) (s : α) : (a + s).v1 = a.v1 + s := rfl
@[simp] theorem SPD.sadd_v2 (a : SPD α) (s : α) : (a + s).v2 = a.v2 + s := rfl
@[simp] theorem SPD.const_v0 (s : α) : (SPD.const s).v0 = s := rfl
@[simp] theorem SPD.const_v1 (s : α) : (SPD.const s).v1 = s := rfl
@[simp] theorem SPD.const_v2 (s : α) : (SPD.const s).v2 = s := rfl
@[simp] theorem SPD.zero_v0 : (SPD.zero : SPD α).v0 = 0 := rfl
@[simp] theorem SPD.zero_v1 : (SPD.zero : SPD α).v1 = 0 := rfl
@[simp] theorem SPD.zero_v2 : (SPD.zero : SPD α).v2 = 0 := rfl

theorem SPD_ext_iff3 (a b : SPD α) : a = b ↔ a.v0 = b.v0 ∧ a.v1 = b.v1 ∧ a.v2 = b.v2 := by
  cases a; cases b; simp

theorem Vec3_ext_iff3 (a b : Vec3 α) : a = b ↔ a.x = b.x ∧ a.y = b.y ∧ a.z = b.z := by
  cases a; cases b; simp

end Components

/-! ## Signs of the factors of the BRDF -/

section Signs

variable {α : Type} [LinearOrderedField α]

/-- One band of the Fresnel term, as the code computes it. -/
theorem fresnel_band_nonneg (eta k c : α) :
    0 ≤ (((eta * eta + k * k) * (c * c) - eta * (2 * c) + 1) /
          ((eta * eta + k * k) * (c * c) + eta * (2 * c) + 1) +
        ((eta * eta + k * k) - eta * (2 * c) + c * c) /
          ((eta * eta + k * k) + eta * (2 * c) + c * c)) * (1 / 2) := by
  have h1 : 0 ≤ (eta * eta + k * k) * (c * c) - eta * (2 * c) + 1 := by
    nlinarith [sq_nonneg (eta * c - 1), sq_nonneg (k * c)]
  have h2 : 0 ≤ (eta * eta + k * k) * (c * c) + eta * (2 * c) + 1 := by
    nlinarith [sq_nonneg (eta * c + 1), sq_nonneg (k * c)]
  have h3 : 0 ≤ (eta * eta + k * k) - eta * (2 * c) + c * c := by
    nlinarith [sq_nonneg (eta - c), sq_nonneg k]
  have h4 : 0 ≤ (eta * eta + k * k) + eta * (2 * c) + c * c := by
    nlinarith [sq_nonneg (eta + c), sq_nonneg k]
  have := div_nonneg h1 h2
  have := div_nonneg h3 h4
  positivity

/-- The Fresnel term is non-negative in every band, for every eta, k and
incidence cosine. -/
theorem EvaluateFrConductor_nonneg (self : BSDF_CookTorrance α) (c : α) :
    SPD.Nonneg (EvaluateFrConductor self c) := by
  refine ⟨?_, ?_, ?_⟩ <;>
    simpa [EvaluateFrConductor] using fresnel_band_nonneg _ _ c

/-- The GGX density is non-negative when pi is. -/
theorem EvaluateGGX_nonneg (m : MathFns α) (hpi : 0 ≤ m.Pi) (self : BSDF_CookTorrance α)
    (H : Vec3 α) : 0 ≤ EvaluateGGX m self H := by
  unfold EvaluateGGX
  simp only
  split
  · exact le_refl 0
  · apply div_nonneg (mul_self_nonneg _)
    have h4 : 0 ≤ Math.LocalCos H * Math.LocalCos H * (Math.LocalCos H * Math.LocalCos H) :=
      mul_nonneg (mul_self_nonneg _) (mul_self_nonneg _)
    have ht := mul_self_nonneg
      (self.roughness_ * self.roughness_ + m.LocalTan H * m.LocalTan H)
    have := mul_nonneg hpi (mul_nonneg h4 ht)
    calc (0 : α) ≤ _ := this
      _ = _ := by ring

/-- The shadow-masking value is non-negative when the three vectors have a
non-negative local z. -/
theorem EvalauteShadowMaskingFunc_nonneg (wi wo H : Vec3 α) (hi : 0 ≤ wi.z)
    (ho : 0 ≤ wo.z) (hH : 0 ≤ H.z) : 0 ≤ EvalauteShadowMaskingFunc wi wo H := by
  unfold EvalauteShadowMaskingFunc
  simp only [Math.LocalCos]
  refine le_min zero_le_one (le_min ?_ ?_) <;>
    exact div_nonneg (by positivity) (abs_nonneg _)

end Signs

/-! ## Serialize and Deserialize -/

/-- What Deserialize does to a stream that Serialize wrote, for every
instance: R, eta and roughness are the original ones, k is the one the
reading instance had before the call. -/
theorem Deserialize_Serialize_fields {α : Type} [LinearOrderedField α]
    (orig self : BSDF_CookTorrance α) (userdata : String → Option (Assets α))
    (r : Bool × BSDF_CookTorrance α × List (Prim α))
    (h : Deserialize self (Serialize orig []).2 userdata = some r) :
    r.1 = true ∧ r.2.1.R_ = orig.R_ ∧ r.2.1.eta_ = orig.eta_ ∧
      r.2.1.roughness_ = orig.roughness_ ∧ r.2.1.k_ = self.k_ ∧ r.2.2 = [] := by
  simp only [Serialize, Deserialize, writeSPD, List.nil_append, List.cons_append,
    List.append_assoc, readSPD, readInt, readFloat] at h
  split at h
  · split at h
    · simp at h
    · simp only [Option.some.injEq] at h
      subst h
      simp
  · simp only [Option.some.injEq] at h
    subst h
    simp

/-- C1 (evaluated at the failing input): the instance with the conductor
preset is serialized and read back into a fresh instance through the stub
resolver; the call succeeds, R, the texture index, eta and roughness come
back, and k comes back as the zero spectrum of the fresh instance, not as the
k of the original. -/
theorem C1_roundtrip_loses_k :
    ((Deserialize freshInstance (Serialize presetInstance []).2 stubUserdata).map
        (fun r => (r.1, r.2.1.R_, texIndex r.2.1, r.2.1.eta_, r.2.1.roughness_, r.2.1.k_))
      = some (true, presetInstance.R_, texIndex presetInstance, presetInstance.eta_,
          presetInstance.roughness_, SPD.zero)) ∧
    presetInstance.k_ ≠ SPD.zero := by
  constructor
  · rfl
  · simp only [presetInstance, SPD.zero, ne_eq, SPD.mk.injEq, not_and]
    norm_num

/-- C2 (evaluated at the failing input): Serialize writes four fields, eight
primitives: R, the texture index, eta, roughness; the spectrum k is not
written, so the stream is not the five-field layout; and Deserialize, given
the five-field layout, reads four fields, takes the first float of k for
roughness and leaves the rest of the stream unread. -/
theorem C2_serialize_writes_four_fields :
    (Serialize presetInstance []).2 =
      [Prim.float (1 / 2), Prim.float (1 / 2), Prim.float (1 / 2), Prim.int (-1),
       Prim.float (7 / 50), Prim.float (129 / 1000), Prim.float (317 / 2000),
       Prim.float (1 / 10)] ∧
    (Serialize presetInstance []).2 ≠ specLayout presetInstance ∧
    (Deserialize freshInstance (specLayout presetInstance) stubUserdata).map
        (fun r => (r.2.1.roughness_, r.2.1.k_, r.2.2))
      = some (3669 / 800, SPD.zero,
          [Prim.float (5357 / 1600), Prim.float (3727 / 1600), Prim.float (1 / 10)]) := by
  refine ⟨?_, ?_, ?_⟩
  · simp only [Serialize, presetInstance, writeSPD, List.nil_append, List.cons_append]
    norm_num
  · simp [Serialize, specLayout, presetInstance, writeSPD]
  · simp only [Deserialize, specLayout, presetInstance, freshInstance, writeSPD,
      List.nil_append, List.cons_append, readSPD, readInt, readFloat]
    norm_num [SPD.zero]

/-! ## EvaluateDirection is non-negative -/

section Sampling

variable {α : Type} [LinearOrderedField α]

/-- The remapped first sample lies in the unit interval. -/
theorem ToOpenClosed_mem (m : MathFns α) (heps : 0 ≤ m.Eps ∧ m.Eps ≤ 1) (u : α)
    (hu : 0 ≤ u ∧ u ≤ 1) : 0 ≤ ToOpenClosed m u ∧ ToOpenClosed m u ≤ 1 := by
  unfold ToOpenClosed
  obtain ⟨h0, h1⟩ := heps
  obtain ⟨hu0, hu1⟩ := hu
  constructor
  · nlinarith [mul_nonneg (sub_nonneg.mpr h1) hu0]
  · nlinarith [mul_nonneg (sub_nonneg.mpr h1) (sub_nonneg.mpr hu1)]

/-- The radicand of the common denominator of SampleGGX is positive. -/
theorem SampleGGX_radicand_pos (r u0 : α) (hr : 0 < r ∧ r ≤ 1) (hu : 0 ≤ u0 ∧ u0 ≤ 1) :
    0 < 1 - (1 - r * r) * u0 := by
  obtain ⟨hr0, hr1⟩ := hr
  obtain ⟨hu0, hu1⟩ := hu
  have h1 : 0 < r * r := mul_pos hr0 hr0
  have h2 : 0 ≤ 1 - r * r := by nlinarith
  nlinarith [mul_nonneg h2 (sub_nonneg.mpr hu1)]

/-- SampleGGX returns a unit vector. -/
theorem SampleGGX_unit (m : MathFns α) (self : BSDF_CookTorrance α) (u : Vec2 α)
    (hsqrt : ∀ x, 0 ≤ x → m.Sqrt x * m.Sqrt x = x)
    (htrig : ∀ x, m.Cos x * m.Cos x + m.Sin x * m.Sin x = 1)
    (heps : 0 ≤ m.Eps ∧ m.Eps ≤ 1)
    (hr : 0 < self.roughness_ ∧ self.roughness_ ≤ 1)
    (hu : 0 ≤ u.x ∧ u.x ≤ 1) :
    Math.Dot (SampleGGX m self u) (SampleGGX m self u) = 1 := by
  have hu0 := ToOpenClosed_mem m heps u.x hu
  have hden := SampleGGX_radicand_pos self.roughness_ (ToOpenClosed m u.x) hr hu0
  have ha := hsqrt (1 - ToOpenClosed m u.x) (sub_nonneg.mpr hu0.2)
  have hb := hsqrt (ToOpenClosed m u.x) hu0.1
  have hc := hsqrt _ hden.le
  have ht := htrig (m.Pi * (2 * ToOpenOpen m u.y - 1))
  have hne : m.Sqrt (1 - (1 - self.roughness_ * self.roughness_) * ToOpenClosed m u.x) ≠ 0 := by
    intro h0
    rw [h0] at hc
    linarith
  simp only [SampleGGX, Math.Dot]
  field_simp
  generalize m.Sqrt (1 - (1 - self.roughness_ * self.roughness_) * ToOpenClosed m u.x) = s at *
  generalize m.Sqrt (1 - ToOpenClosed m u.x) = a at *
  generalize m.Sqrt (ToOpenClosed m u.x) = b at *
  generalize m.Cos (m.Pi * (2 * ToOpenOpen m u.y - 1)) = C at *
  generalize m.Sin (m.Pi * (2 * ToOpenOpen m u.y - 1)) = S at *
  linear_combination (self.roughness_ * self.roughness_ * b * b) * ht +
    (self.roughness_ * self.roughness_) * hb + ha - hc

/-- Reflection about a unit vector keeps the squared length. -/
theorem reflect_dot_self (w H : Vec3 α) (hH : Math.Dot H H = 1) :
    Math.Dot (-w - (2 * Math.Dot (-w) H) * H) (-w - (2 * Math.Dot (-w) H) * H) =
      Math.Dot w w := by
  simp only [Math.Dot, Vec3.sub_x, Vec3.sub_y, Vec3.sub_z, Vec3.neg_x, Vec3.neg_y,
    Vec3.neg_z, Vec3.smul_x, Vec3.smul_y, Vec3.smul_z] at *
  linear_combination (4 * (w.x * H.x + w.y * H.y + w.z * H.z) ^ 2) * hH

/-- ToWorld of an orthonormal frame keeps the squared length. -/
theorem Orthonormal.dot_ToWorld (g : SurfaceGeometry α) (hg : g.Orthonormal) (v : Vec3 α) :
    Math.Dot (g.ToWorld * v) (g.ToWorld * v) = Math.Dot v v := by
  obtain ⟨-, h00, h11, h22, h01, h02, h12, -⟩ := hg
  simp only [Math.Dot, Mat3.mulVec_x, Mat3.mulVec_y, Mat3.mulVec_z] at *
  linear_combination (v.x * v.x) * h00 + (v.y * v.y) * h11 + (v.z * v.z) * h22 +
    (2 * v.x * v.y) * h01 + (2 * v.x * v.z) * h02 + (2 * v.y * v.z) * h12

/-- ToLocal of an orthonormal frame keeps the squared length. -/
theorem Orthonormal.dot_ToLocal (g : SurfaceGeometry α) (hg : g.Orthonormal) (v : Vec3 α) :
    Math.Dot (g.ToLocal * v) (g.ToLocal * v) = Math.Dot v v := by
  obtain ⟨-, -, -, -, -, -, -, h00, h11, h22, h01, h02, h12⟩ := hg
  simp only [Math.Dot, Mat3.mulVec_x, Mat3.mulVec_y, Mat3.mulVec_z] at *
  linear_combination (v.x * v.x) * h00 + (v.y * v.y) * h11 + (v.z * v.z) * h22 +
    (2 * v.x * v.y) * h01 + (2 * v.x * v.z) * h02 + (2 * v.y * v.z) * h12

/-- ToLocal undoes ToWorld in an orthonormal frame. -/
theorem Orthonormal.ToLocal_ToWorld (g : SurfaceGeometry α) (hg : g.Orthonormal)
    (v : Vec3 α) : g.ToLocal * (g.ToWorld * v) = v := by
  obtain ⟨ht, h00, h11, h22, h01, h02, h12, -⟩ := hg
  rw [Vec3_ext_iff3]
  simp only [Math.Dot, Mat3.mulVec_x, Mat3.mulVec_y, Mat3.mulVec_z, ht] at *
  refine ⟨?_, ?_, ?_⟩
  · linear_combination v.x * h00 + v.y * h01 + v.z * h02
  · linear_combination v.x * h01 + v.y * h11 + v.z * h12
  · linear_combination v.x * h02 + v.y * h12 + v.z * h22

/-- C7: SampleDirection reaches its assignment exactly when the local z of
wi_l = ToLocal * wi is positive and the local z of the reflected vector
r = -wi_l - 2 (-wi_l . H) H is positive, H being the half-vector that
SampleNormalDist draws for u; then wo is exactly ToWorld * r, and otherwise wo
is left as it was. -/
theorem C7_SampleDirection_iff (m : MathFns α) (self : BSDF_CookTorrance α) (u : Vec2 α)
    (uComp : α) (queryType : Int) (geom : SurfaceGeometry α) (wi wo : Vec3 α) :
    ((SampleDirection m self u uComp queryType geom wi wo).1 = true ↔
      (0 < (geom.ToLocal * wi).z ∧
       0 < (-(geom.ToLocal * wi) -
          (2 * Math.Dot (-(geom.ToLocal * wi)) (SampleNormalDist m self u)) *
            SampleNormalDist m self u).z)) ∧
    ((SampleDirection m self u uComp queryType geom wi wo).1 = true →
      (SampleDirection m self u uComp queryType geom wi wo).2 =
        geom.ToWorld * (-(geom.ToLocal * wi) -
          (2 * Math.Dot (-(geom.ToLocal * wi)) (SampleNormalDist m self u)) *
            SampleNormalDist m self u)) ∧
    ((SampleDirection m self u uComp queryType geom wi wo).1 = false →
      (SampleDirection m self u uComp queryType geom wi wo).2 = wo) := by
  unfold SampleDirection
  simp only [Math.LocalCos]
  by_cases h1 : (geom.ToLocal * wi).z ≤ 0
  · rw [if_pos h1]
    simp only [Bool.false_eq_true, false_iff, not_and, false_implies, implies_true, and_true]
    intro h
    exact absurd h (not_lt.mpr h1)
  · rw [if_neg h1]
    by_cases h2 : (-(geom.ToLocal * wi) -
          (2 * Math.Dot (-(geom.ToLocal * wi)) (SampleNormalDist m self u)) *
            SampleNormalDist m self u).z ≤ 0
    · rw [if_pos h2]
      simp only [Bool.false_eq_true, false_iff, not_and, false_implies, implies_true, and_true]
      intro _
      exact not_lt.mpr h2
    · rw [if_neg h2]
      simp only [true_iff, implies_true, Bool.true_eq_false, false_implies, and_true]
      exact ⟨not_le.mp h1, not_le.mp h2⟩

/-- C4: in an orthonormal frame, for a unit wi, a roughness in (0,1] and u in
the unit square, with a square root that squares back on non-negative
arguments, a cosine and sine whose squares add up to one and an epsilon in
[0,1]: when SampleDirection reaches its assignment, wo is a unit vector and
its local z, the z of ToLocal * wo, is strictly positive. -/
theorem C4_SampleDirection_unit_upper (m : MathFns α) (self : BSDF_CookTorrance α)
    (u : Vec2 α) (uComp : α) (queryType : Int) (geom : SurfaceGeometry α) (wi wo : Vec3 α)
    (hsqrt : ∀ x, 0 ≤ x → m.Sqrt x * m.Sqrt x = x)
    (htrig : ∀ x, m.Cos x * m.Cos x + m.Sin x * m.Sin x = 1)
    (heps : 0 ≤ m.Eps ∧ m.Eps ≤ 1)
    (hgeom : geom.Orthonormal)
    (hwi : Math.Dot wi wi = 1)
    (hr : 0 < self.roughness_ ∧ self.roughness_ ≤ 1)
    (hu : 0 ≤ u.x ∧ u.x ≤ 1 ∧ 0 ≤ u.y ∧ u.y ≤ 1)
    (hs : (SampleDirection m self u uComp queryType geom wi wo).1 = true) :
    Math.Dot (SampleDirection m self u uComp queryType geom wi wo).2
        (SampleDirection m self u uComp queryType geom wi wo).2 = 1 ∧
    0 < (geom.ToLocal * (SampleDirection m self u uComp queryType geom wi wo).2).z := by
  have hH : Math.Dot (SampleNormalDist m self u) (SampleNormalDist m self u) = 1 :=
    SampleGGX_unit m self u hsqrt htrig heps hr ⟨hu.1, hu.2.1⟩
  unfold SampleDirection at hs ⊢
  simp only [Math.LocalCos] at hs ⊢
  by_cases h1 : (geom.ToLocal * wi).z ≤ 0
  · rw [if_pos h1] at hs
    simp at hs
  · rw [if_neg h1] at hs ⊢
    by_cases h2 : (-(geom.ToLocal * wi) -
          (2 * Math.Dot (-(geom.ToLocal * wi)) (SampleNormalDist m self u)) *
            SampleNormalDist m self u).z ≤ 0
    · rw [if_pos h2] at hs
      simp at hs
    · rw [if_neg h2]
      simp only
      constructor
      · rw [Orthonormal.dot_ToWorld geom hgeom, reflect_dot_self _ _ hH,
          Orthonormal.dot_ToLocal geom hgeom, hwi]
      · rw [Orthonormal.ToLocal_ToWorld geom hgeom]
        exact not_le.mp h2

/-- The identity frame is orthonormal. -/
theorem identityFrame_Orthonormal : (identityFrame : SurfaceGeometry α).Orthonormal := by
  simp [SurfaceGeometry.Orthonormal, identityFrame, Math.Dot]

end Sampling

/-- With the real square root, cosine, sine and pi and epsilon = 1/10000, the
unit instance, sampled at u = (0, 1/2) for wi the normal of the identity
frame, reaches the assignment of SampleDirection. -/
theorem SampleDirection_real_reaches :
    (SampleDirection (MathFns.ofFns Real.sqrt Real.cos Real.sin Real.pi (1 / 10000))
      unitInstance ⟨0, 1 / 2⟩ 0 0 identityFrame ⟨0, 0, 1⟩ ⟨0, 0, 0⟩).1 = true := by
  have key : (Real.sqrt 9999 / Real.sqrt 10000) * (Real.sqrt 9999 / Real.sqrt 10000)
      = 9999 / 10000 := by
    rw [div_mul_div_comm, Real.mul_self_sqrt (by norm_num), Real.mul_self_sqrt (by norm_num)]
  simp [SampleDirection, SampleNormalDist, SampleGGX, ToOpenClosed, ToOpenOpen, MathFns.ofFns,
    unitInstance, identityFrame, Math.LocalCos, Math.Dot]
  norm_num
  rw [if_neg]
  rw [mul_assoc, key]
  norm_num

/-- C4 witness: the real square root, cosine, sine and pi, epsilon = 1/10000,
the unit instance (roughness 1), the identity frame, wi the normal and
u = (0, 1/2). -/
theorem C4_SampleDirection_unit_upper_witness :
    (SampleDirection (MathFns.ofFns Real.sqrt Real.cos Real.sin Real.pi (1 / 10000))
      unitInstance ⟨0, 1 / 2⟩ 0 0 identityFrame ⟨0, 0, 1⟩ ⟨0, 0, 0⟩).1 = true ∧
    Math.Dot
      (SampleDirection (MathFns.ofFns Real.sqrt Real.cos Real.sin Real.pi (1 / 10000))
        unitInstance ⟨0, 1 / 2⟩ 0 0 identityFrame ⟨0, 0, 1⟩ ⟨0, 0, 0⟩).2
      (SampleDirection (MathFns.ofFns Real.sqrt Real.cos Real.sin Real.pi (1 / 10000))
        unitInstance ⟨0, 1 / 2⟩ 0 0 identityFrame ⟨0, 0, 1⟩ ⟨0, 0, 0⟩).2 = 1 ∧
    0 < ((identityFrame : SurfaceGeometry ℝ).ToLocal *
      (SampleDirection (MathFns.ofFns Real.sqrt Real.cos Real.sin Real.pi (1 / 10000))
        unitInstance ⟨0, 1 / 2⟩ 0 0 identityFrame ⟨0, 0, 1⟩ ⟨0, 0, 0⟩).2).z :=
  ⟨SampleDirection_real_reaches,
    C4_SampleDirection_unit_upper
      (MathFns.ofFns Real.sqrt Real.cos Real.sin Real.pi (1 / 10000))
      unitInstance ⟨0, 1 / 2⟩ 0 0 identityFrame ⟨0, 0, 1⟩ ⟨0, 0, 0⟩
      (fun x hx => Real.mul_self_sqrt hx)
      (fun x => by
        have h := Real.cos_sq_add_sin_sq x
        simp only [MathFns.ofFns]
        nlinarith [h])
      (by simp only [MathFns.ofFns]; norm_num)
      identityFrame_Orthonormal
      (by simp [Math.Dot])
      (by simp [unitInstance])
      (by norm_num)
      SampleDirection_real_reaches⟩

/-! ## EvaluateDirectionPDF and EvaluateDirection -/

section Evaluation

variable {α : Type} [LinearOrderedField α]

/-- C5: for every frame and every wi, wo, EvaluateDirectionPDF returns the
density 0 in the projected-solid-angle measure when the local z of wi or of
wo is not positive; otherwise, with wi_l = ToLocal * wi, wo_l = ToLocal * wo
and H = normalize(wi_l + wo_l), it returns, in the same measure,
D(H) cos(theta_H) / (4 (wo_l . H)) / cos(theta_wo), D being EvaluateGGX and
the cosines the local z. -/
theorem C5_EvaluateDirectionPDF_eq (m : MathFns α) (self : BSDF_CookTorrance α)
    (geom : SurfaceGeometry α) (queryType : Int) (wi wo : Vec3 α) (evalDelta : Bool) :
    ((geom.ToLocal * wi).z ≤ 0 ∨ (geom.ToLocal * wo).z ≤ 0 →
      EvaluateDirectionPDF m self geom queryType wi wo evalDelta =
        ⟨PDFMeasure.ProjectedSolidAngle, 0⟩) ∧
    (0 < (geom.ToLocal * wi).z ∧ 0 < (geom.ToLocal * wo).z →
      EvaluateDirectionPDF m self geom queryType wi wo evalDelta =
        ⟨PDFMeasure.ProjectedSolidAngle,
          EvaluateGGX m self (Math.Normalize m (geom.ToLocal * wi + geom.ToLocal * wo)) *
            (Math.Normalize m (geom.ToLocal * wi + geom.ToLocal * wo)).z /
            (4 * Math.Dot (geom.ToLocal * wo)
              (Math.Normalize m (geom.ToLocal * wi + geom.ToLocal * wo))) /
            (geom.ToLocal * wo).z⟩) := by
  unfold EvaluateDirectionPDF
  simp only [Math.LocalCos, EvaluateNormalDist]
  constructor
  · intro h
    rw [if_pos h]
  · intro h
    rw [if_neg (not_or.mpr ⟨not_le.mpr h.1, not_le.mpr h.2⟩)]

/-- C6 (amended): EvaluateDirection is the zero spectrum when the local z of
wi or of wo is not positive; otherwise it is, in every band,
R D(H) G(wi_l, wo_l, H) F / (4 cos theta_i cos theta_o) times the
shading-normal correction factor, where H = normalize(wi_l + wo_l), the
cosines are the local z of wi_l and wo_l, R is the texture value when a
texture is bound and the constant otherwise, and F is the Fresnel conductor
reflectance evaluated at wi_l . H, the cosine between wi and the half-vector. -/
theorem C6_EvaluateDirection_eq (m : MathFns α)
    (snc : SurfaceGeometry α → Vec3 α → Vec3 α → TransportDirection → α)
    (self : BSDF_CookTorrance α) (geom : SurfaceGeometry α) (types : Int)
    (wi wo : Vec3 α) (transDir : TransportDirection) (evalDelta : Bool) :
    ((geom.ToLocal * wi).z ≤ 0 ∨ (geom.ToLocal * wo).z ≤ 0 →
      EvaluateDirection m snc self geom types wi wo transDir evalDelta = SPD.zero) ∧
    (0 < (geom.ToLocal * wi).z ∧ 0 < (geom.ToLocal * wo).z →
      EvaluateDirection m snc self geom types wi wo transDir evalDelta =
        Reflectance2 self geom *
          EvaluateNormalDist m self (Math.Normalize m (geom.ToLocal * wi + geom.ToLocal * wo)) *
          EvalauteShadowMaskingFunc (geom.ToLocal * wi) (geom.ToLocal * wo)
            (Math.Normalize m (geom.ToLocal * wi + geom.ToLocal * wo)) *
          EvaluateFrConductor self (Math.Dot (geom.ToLocal * wi)
            (Math.Normalize m (geom.ToLocal * wi + geom.ToLocal * wo))) /
          (4 * (geom.ToLocal * wi).z * (geom.ToLocal * wo).z) *
          snc geom wi wo transDir) := by
  unfold EvaluateDirection
  simp only [Math.LocalCos]
  constructor
  · intro h
    rw [if_pos h]
  · intro h
    rw [if_neg (not_or.mpr ⟨not_le.mpr h.1, not_le.mpr h.2⟩)]
    rw [SPD_ext_iff3]
    simp only [Reflectance2, SPD.smul_v0, SPD.smul_v1, SPD.smul_v2, SPD.mul_v0, SPD.mul_v1,
      SPD.mul_v2, SPD.sdiv_v0, SPD.sdiv_v1, SPD.sdiv_v2, div_div]
    exact ⟨trivial, trivial, trivial⟩

end Evaluation

/-! ### A concrete evaluation on the reals

The unit instance (R = 1, eta = 1, k = 0, roughness 1) in the identity frame,
wi = (0, 0, 1) and wo = (24/25, 0, 7/25), both unit; the half-vector is
(3/5, 0, 4/5), so wi . H = wo . H = 4/5 while the local z of wi is 1. -/

/-- ToLocal of the identity frame is the identity. -/
theorem identityFrame_ToLocal (v : Vec3 ℝ) :
    (identityFrame : SurfaceGeometry ℝ).ToLocal * v = v := by
  rw [Vec3_ext_iff3]
  simp [identityFrame]

/-- The half-vector of the example. -/
theorem real_Normalize_example :
    Math.Normalize (MathFns.ofFns Real.sqrt Real.cos Real.sin Real.pi (1 / 10000))
      ((⟨0, 0, 1⟩ : Vec3 ℝ) + ⟨24 / 25, 0, 7 / 25⟩) = ⟨3 / 5, 0, 4 / 5⟩ := by
  have hlen : Real.sqrt ((0 + 24 / 25) * (0 + 24 / 25) + (0 + 0) * (0 + 0) +
      (1 + 7 / 25) * (1 + 7 / 25)) = 8 / 5 := by
    rw [show ((0 + 24 / 25) * (0 + 24 / 25) + (0 + 0) * (0 + 0) +
      (1 + 7 / 25) * (1 + 7 / 25) : ℝ) = (8 / 5) * (8 / 5) by norm_num]
    exact Real.sqrt_mul_self (by norm_num)
  rw [Vec3_ext_iff3]
  simp only [Math.Normalize, Math.Length, Math.Dot, MathFns.ofFns, Vec3.div_x, Vec3.div_y,
    Vec3.div_z, Vec3.add_x, Vec3.add_y, Vec3.add_z, hlen]
  norm_num

/-- The tangent of the polar angle of the half-vector of the example. -/
theorem real_LocalTan_example :
    (MathFns.ofFns Real.sqrt Real.cos Real.sin Real.pi (1 / 10000)).LocalTan
      (⟨3 / 5, 0, 4 / 5⟩ : Vec3 ℝ) = 3 / 4 := by
  have h : Real.sqrt (1 - 4 / 5 * (4 / 5)) = 3 / 5 := by
    rw [show (1 - 4 / 5 * (4 / 5) : ℝ) = (3 / 5) * (3 / 5) by norm_num]
    exact Real.sqrt_mul_self (by norm_num)
  simp only [MathFns.ofFns, Math.LocalTan, h]
  norm_num

/-- The shadow-masking value of the example. -/
theorem real_masking_example :
    EvalauteShadowMaskingFunc (⟨0, 0, 1⟩ : Vec3 ℝ) ⟨24 / 25, 0, 7 / 25⟩ ⟨3 / 5, 0, 4 / 5⟩
      = 14 / 25 := by
  simp only [EvalauteShadowMaskingFunc, Math.Dot, Math.LocalCos]
  norm_num
  rw [abs_of_pos (by norm_num : (0 : ℝ) < 4 / 5)]
  have e1 : ((56 / 125 / (4 / 5) : ℝ) ⊓ (8 / 5 / (4 / 5))) = 14 / 25 := by
    rw [inf_eq_left.mpr (by norm_num)]
    norm_num
  rw [e1, inf_eq_right.mpr (by norm_num)]

/-- The GGX density of the example is 1/pi. -/
theorem real_GGX_example :
    EvaluateGGX (MathFns.ofFns Real.sqrt Real.cos Real.sin Real.pi (1 / 10000))
      (unitInstance : BSDF_CookTorrance ℝ) ⟨3 / 5, 0, 4 / 5⟩ = 1 / Real.pi := by
  simp only [EvaluateGGX, real_LocalTan_example, Math.LocalCos]
  rw [if_neg (by norm_num)]
  simp only [unitInstance, MathFns.ofFns]
  have hpi : Real.pi ≠ 0 := Real.pi_pos.ne.symm
  field_simp
  ring

/-- The code, at the example, returns 1/(162 pi) in every band. -/
theorem EvaluateDirection_real_example :
    EvaluateDirection (MathFns.ofFns Real.sqrt Real.cos Real.sin Real.pi (1 / 10000))
        (fun _ _ _ _ => 1) unitInstance identityFrame 0 ⟨0, 0, 1⟩ ⟨24 / 25, 0, 7 / 25⟩
        TransportDirection.LE false = SPD.const (1 / (162 * Real.pi)) := by
  unfold EvaluateDirection
  simp only [identityFrame_ToLocal, real_Normalize_example, EvaluateNormalDist,
    real_GGX_example, real_masking_example, Math.LocalCos]
  rw [if_neg (by norm_num)]
  rw [SPD_ext_iff3]
  simp [EvaluateFrConductor, unitInstance, Math.Dot]
  norm_num
  ring

/-- The formula with the Fresnel term at the local z of wi, at the example,
is the zero spectrum. -/
theorem specEvaluateDirection_real_example :
    specEvaluateDirection (MathFns.ofFns Real.sqrt Real.cos Real.sin Real.pi (1 / 10000))
        (fun _ _ _ _ => 1) unitInstance identityFrame ⟨0, 0, 1⟩ ⟨24 / 25, 0, 7 / 25⟩
        TransportDirection.LE = SPD.zero := by
  unfold specEvaluateDirection
  simp only [identityFrame_ToLocal]
  rw [if_neg (by norm_num)]
  rw [SPD_ext_iff3]
  simp only [EvaluateFrConductor, unitInstance, SPD.smul_v0, SPD.smul_v1, SPD.smul_v2,
    SPD.mul_v0, SPD.mul_v1, SPD.mul_v2, SPD.sdiv_v0, SPD.sdiv_v1, SPD.sdiv_v2, SPD.add_v0,
    SPD.add_v1, SPD.add_v2, SPD.sub_v0, SPD.sub_v1, SPD.sub_v2, SPD.div_v0, SPD.div_v1,
    SPD.div_v2, SPD.sadd_v0, SPD.sadd_v1, SPD.sadd_v2, SPD.const_v0, SPD.const_v1,
    SPD.const_v2, SPD.zero_v0, SPD.zero_v1, SPD.zero_v2]
  norm_num

/-- C6 counterexample: for the unit instance in the identity frame, wi the
normal and wo = (24/25, 0, 7/25), the code returns 1/(162 pi) in every band
(Fresnel term at wi . H = 4/5, which is 1/81), while the formula with the
Fresnel term at the local z of wi, which is 1, gives the zero spectrum. -/
theorem C6_fresnel_at_local_z_counterexample :
    EvaluateDirection (MathFns.ofFns Real.sqrt Real.cos Real.sin Real.pi (1 / 10000))
        (fun _ _ _ _ => 1) unitInstance identityFrame 0 ⟨0, 0, 1⟩ ⟨24 / 25, 0, 7 / 25⟩
        TransportDirection.LE false = SPD.const (1 / (162 * Real.pi)) ∧
    specEvaluateDirection (MathFns.ofFns Real.sqrt Real.cos Real.sin Real.pi (1 / 10000))
        (fun _ _ _ _ => 1) unitInstance identityFrame ⟨0, 0, 1⟩ ⟨24 / 25, 0, 7 / 25⟩
        TransportDirection.LE = SPD.zero ∧
    EvaluateDirection (MathFns.ofFns Real.sqrt Real.cos Real.sin Real.pi (1 / 10000))
        (fun _ _ _ _ => 1) unitInstance identityFrame 0 ⟨0, 0, 1⟩ ⟨24 / 25, 0, 7 / 25⟩
        TransportDirection.LE false ≠
      specEvaluateDirection (MathFns.ofFns Real.sqrt Real.cos Real.sin Real.pi (1 / 10000))
        (fun _ _ _ _ => 1) unitInstance identityFrame ⟨0, 0, 1⟩ ⟨24 / 25, 0, 7 / 25⟩
        TransportDirection.LE := by
  refine ⟨EvaluateDirection_real_example, specEvaluateDirection_real_example, ?_⟩
  rw [EvaluateDirection_real_example, specEvaluateDirection_real_example]
  intro h
  have h0 := congrArg SPD.v0 h
  simp only [SPD.const_v0, SPD.zero_v0] at h0
  have hpi : (0 : ℝ) < 1 / (162 * Real.pi) := by
    have := Real.pi_pos
    positivity
  linarith

/-- C5 witness: at the example the guard passes and the density is
D(H) cos(theta_H) / (4 (wo_l . H)) / cos(theta_wo) = 25/(28 pi). -/
theorem C5_EvaluateDirectionPDF_eq_witness :
    EvaluateDirectionPDF (MathFns.ofFns Real.sqrt Real.cos Real.sin Real.pi (1 / 10000))
        unitInstance identityFrame 0 ⟨0, 0, 1⟩ ⟨24 / 25, 0, 7 / 25⟩ false =
      ⟨PDFMeasure.ProjectedSolidAngle, 25 / (28 * Real.pi)⟩ := by
  rw [(C5_EvaluateDirectionPDF_eq _ _ _ _ _ _ _).2
    ⟨by rw [identityFrame_ToLocal]; norm_num, by rw [identityFrame_ToLocal]; norm_num⟩]
  simp only [identityFrame_ToLocal, real_Normalize_example, real_GGX_example, Math.Dot]
  congr 1
  have hpi : Real.pi ≠ 0 := Real.pi_pos.ne.symm
  field_simp
  ring

/-- C6 witness: at the example the guard passes and the amended formula
gives the value of the code. -/
theorem C6_EvaluateDirection_eq_witness :
    EvaluateDirection (MathFns.ofFns Real.sqrt Real.cos Real.sin Real.pi (1 / 10000))
        (fun _ _ _ _ => 1) unitInstance identityFrame 0 ⟨0, 0, 1⟩ ⟨24 / 25, 0, 7 / 25⟩
        TransportDirection.LE false =
      Reflectance2 (unitInstance : BSDF_CookTorrance ℝ) identityFrame *
        EvaluateNormalDist (MathFns.ofFns Real.sqrt Real.cos Real.sin Real.pi (1 / 10000))
          unitInstance (⟨3 / 5, 0, 4 / 5⟩ : Vec3 ℝ) *
        EvalauteShadowMaskingFunc (⟨0, 0, 1⟩ : Vec3 ℝ) ⟨24 / 25, 0, 7 / 25⟩ ⟨3 / 5, 0, 4 / 5⟩ *
        EvaluateFrConductor unitInstance (4 / 5 : ℝ) / (4 * 1 * (7 / 25) : ℝ) * (1 : ℝ) := by
  rw [(C6_EvaluateDirection_eq _ _ _ _ _ _ _ _ _).2
    ⟨by rw [identityFrame_ToLocal]; norm_num, by rw [identityFrame_ToLocal]; norm_num⟩]
  simp only [identityFrame_ToLocal, real_Normalize_example, Math.Dot]
  norm_num

/-- C7 witness: at the sample of SampleDirection_real_reaches the assignment
is reached and wo is ToWorld times the reflected vector. -/
theorem C7_SampleDirection_iff_witness :
    (SampleDirection (MathFns.ofFns Real.sqrt Real.cos Real.sin Real.pi (1 / 10000))
      unitInstance ⟨0, 1 / 2⟩ 0 0 identityFrame ⟨0, 0, 1⟩ ⟨0, 0, 0⟩).2 =
    (identityFrame : SurfaceGeometry ℝ).ToWorld *
      (-((identityFrame : SurfaceGeometry ℝ).ToLocal * (⟨0, 0, 1⟩ : Vec3 ℝ)) -
        (2 * Math.Dot (-((identityFrame : SurfaceGeometry ℝ).ToLocal * (⟨0, 0, 1⟩ : Vec3 ℝ)))
          (SampleNormalDist (MathFns.ofFns Real.sqrt Real.cos Real.sin Real.pi (1 / 10000))
            unitInstance ⟨0, 1 / 2⟩)) *
          SampleNormalDist (MathFns.ofFns Real.sqrt Real.cos Real.sin Real.pi (1 / 10000))
            unitInstance ⟨0, 1 / 2⟩) :=
  (C7_SampleDirection_iff _ _ _ _ _ _ _ _).2.1 SampleDirection_real_reaches

/-! ## The Fresnel conductor term -/

section Fresnel

variable {α : Type} [LinearOrderedField α]

/-- One band of the Fresnel term at normal incidence. -/
theorem fresnel_band_normal (eta k : α) (h : (eta + 1) ^ 2 + k ^ 2 ≠ 0) :
    (((eta * eta + k * k) * (1 * 1) - eta * (2 * 1) + 1) /
        ((eta * eta + k * k) * (1 * 1) + eta * (2 * 1) + 1) +
      ((eta * eta + k * k) - eta * (2 * 1) + 1 * 1) /
        ((eta * eta + k * k) + eta * (2 * 1) + 1 * 1)) * (1 / 2) =
    ((eta - 1) ^ 2 + k ^ 2) / ((eta + 1) ^ 2 + k ^ 2) := by
  have h1 : (eta * eta + k * k) * (1 * 1) + eta * (2 * 1) + 1 = (eta + 1) ^ 2 + k ^ 2 := by ring
  have h2 : (eta * eta + k * k) + eta * (2 * 1) + 1 * 1 = (eta + 1) ^ 2 + k ^ 2 := by ring
  rw [h1, h2]
  field_simp
  ring

/-- C8: at the incidence cosine 1, in every band whose (eta+1)^2 + k^2 is
not zero, EvaluateFrConductor equals ((eta-1)^2 + k^2) / ((eta+1)^2 + k^2). -/
theorem C8_EvaluateFrConductor_normal_incidence (self : BSDF_CookTorrance α) :
    ((self.eta_.v0 + 1) ^ 2 + self.k_.v0 ^ 2 ≠ 0 →
      (EvaluateFrConductor self 1).v0 =
        ((self.eta_.v0 - 1) ^ 2 + self.k_.v0 ^ 2) / ((self.eta_.v0 + 1) ^ 2 + self.k_.v0 ^ 2)) ∧
    ((self.eta_.v1 + 1) ^ 2 + self.k_.v1 ^ 2 ≠ 0 →
      (EvaluateFrConductor self 1).v1 =
        ((self.eta_.v1 - 1) ^ 2 + self.k_.v1 ^ 2) / ((self.eta_.v1 + 1) ^ 2 + self.k_.v1 ^ 2)) ∧
    ((self.eta_.v2 + 1) ^ 2 + self.k_.v2 ^ 2 ≠ 0 →
      (EvaluateFrConductor self 1).v2 =
        ((self.eta_.v2 - 1) ^ 2 + self.k_.v2 ^ 2) / ((self.eta_.v2 + 1) ^ 2 + self.k_.v2 ^ 2)) := by
  refine ⟨fun h => ?_, fun h => ?_, fun h => ?_⟩ <;>
    simpa only [EvaluateFrConductor, SPD.smul_v0, SPD.smul_v1, SPD.smul_v2, SPD.mul_v0,
      SPD.mul_v1, SPD.mul_v2, SPD.add_v0, SPD.add_v1, SPD.add_v2, SPD.sub_v0, SPD.sub_v1,
      SPD.sub_v2, SPD.div_v0, SPD.div_v1, SPD.div_v2, SPD.sadd_v0, SPD.sadd_v1, SPD.sadd_v2,
      SPD.const_v0, SPD.const_v1, SPD.const_v2] using fresnel_band_normal _ _ h

/-- C9: for every incidence cosine and every eta and k, EvaluateFrConductor
is, in every band, the mean of the parallel and perpendicular squared
amplitudes of the specification. -/
theorem C9_EvaluateFrConductor_formula (self : BSDF_CookTorrance α) (c : α) :
    (EvaluateFrConductor self c).v0 = specFresnel self.eta_.v0 self.k_.v0 c ∧
    (EvaluateFrConductor self c).v1 = specFresnel self.eta_.v1 self.k_.v1 c ∧
    (EvaluateFrConductor self c).v2 = specFresnel self.eta_.v2 self.k_.v2 c := by
  refine ⟨?_, ?_, ?_⟩ <;>
  · simp only [EvaluateFrConductor, specFresnel, SPD.smul_v0, SPD.smul_v1, SPD.smul_v2,
      SPD.mul_v0, SPD.mul_v1, SPD.mul_v2, SPD.add_v0, SPD.add_v1, SPD.add_v2, SPD.sub_v0,
      SPD.sub_v1, SPD.sub_v2, SPD.div_v0, SPD.div_v1, SPD.div_v2, SPD.sadd_v0, SPD.sadd_v1,
      SPD.sadd_v2, SPD.const_v0, SPD.const_v1, SPD.const_v2]
    ring

end Fresnel

/-- C8 witness: the conductor preset eta = (0.14, 0.129, 0.1585),
k = (4.58625, 3.348125, 2.329375). -/
theorem C8_EvaluateFrConductor_normal_incidence_witness :
    (EvaluateFrConductor presetInstance 1).v0 = 2786981 / 2858661 ∧
    (EvaluateFrConductor presetInstance 1).v1 = 765989249 / 799013249 ∧
    (EvaluateFrConductor presetInstance 1).v2 = 392583049 / 433159049 := by
  obtain ⟨h0, h1, h2⟩ := C8_EvaluateFrConductor_normal_incidence presetInstance
  refine ⟨?_, ?_, ?_⟩
  · rw [h0 (by norm_num [presetInstance])]
    norm_num [presetInstance]
  · rw [h1 (by norm_num [presetInstance])]
    norm_num [presetInstance]
  · rw [h2 (by norm_num [presetInstance])]
    norm_num [presetInstance]

/-! ## The shadow-masking term -/

/-- C10 (evaluated at the failing input): for the unit vectors
wi = (24/25, 0, 7/25), wo = (0, 0, 1) and H = (0, 0, 1), with wi . H = 7/25
and wo . H = 1 both positive, the code returns 14/25, its third term being
2 (n.H)(n.wi) / |wo . H| = 14/25, while the formula with the third term
divided by wi . H gives 1. -/
theorem C10_masking_divides_by_wo_dot_H :
    0 < Math.Dot (⟨24 / 25, 0, 7 / 25⟩ : Vec3 ℚ) ⟨0, 0, 1⟩ ∧
    0 < Math.Dot (⟨0, 0, 1⟩ : Vec3 ℚ) ⟨0, 0, 1⟩ ∧
    EvalauteShadowMaskingFunc (⟨24 / 25, 0, 7 / 25⟩ : Vec3 ℚ) ⟨0, 0, 1⟩ ⟨0, 0, 1⟩ = 14 / 25 ∧
    specShadowMasking (⟨24 / 25, 0, 7 / 25⟩ : Vec3 ℚ) ⟨0, 0, 1⟩ ⟨0, 0, 1⟩ = 1 := by
  refine ⟨?_, ?_, ?_, ?_⟩
  · norm_num [Math.Dot]
  · norm_num [Math.Dot]
  · norm_num [EvalauteShadowMaskingFunc, Math.Dot, Math.LocalCos]
  · norm_num [specShadowMasking, Math.Dot]

/-! ## The GGX normal distribution -/

/-! ## The texture reference after Deserialize and Load -/

section Binding

variable {α : Type}

/-- Deserialize on a stream that starts with a four-field snapshot: the
reads succeed, and the texture reference is replaced only for a non-negative
index. -/
theorem Deserialize_snapshot (self : BSDF_CookTorrance α) (R eta : SPD α) (texID : Int)
    (rough : α) (rest : List (Prim α)) (userdata : String → Option (Assets α))
    (assets : Assets α) (hassets : userdata "assets" = some assets) :
    Deserialize self
        (writeSPD R ++ Prim.int texID :: (writeSPD eta ++ Prim.float rough :: rest)) userdata =
      some (true,
        { R_ := R, texR_ := if 0 ≤ texID then assets.GetByIndex texID else self.texR_,
          eta_ := eta, k_ := self.k_, roughness_ := rough }, rest) := by
  simp only [Deserialize, writeSPD, List.cons_append, List.nil_append, readSPD, readInt,
    readFloat, hassets, ge_iff_le]
  split <;> rfl

/-- C12 (amended): for every state the instance had before the call and every
snapshot, Deserialize succeeds, and afterwards the texture reference is the
asset registry's texture for the stored index when that index is
non-negative, and is the reference the instance had before the call when the
index is negative; so for an instance with no texture bound before the call,
a negative index, in particular -1, leaves it with no texture bound and
Reflectance2 returns the constant R of the snapshot. -/
theorem C12_Deserialize_texture (self : BSDF_CookTorrance α) (R eta : SPD α) (texID : Int)
    (rough : α) (rest : List (Prim α)) (userdata : String → Option (Assets α))
    (assets : Assets α) (hassets : userdata "assets" = some assets) :
    ∃ after : BSDF_CookTorrance α,
      Deserialize self
          (writeSPD R ++ Prim.int texID :: (writeSPD eta ++ Prim.float rough :: rest))
          userdata = some (true, after, rest) ∧
      (0 ≤ texID → after.texR_ = assets.GetByIndex texID) ∧
      (texID < 0 → after.texR_ = self.texR_) ∧
      (self.texR_ = none → texID < 0 →
        after.texR_ = none ∧ ∀ geom, Reflectance2 after geom = R) := by
  refine ⟨_, Deserialize_snapshot self R eta texID rough rest userdata assets hassets, ?_, ?_, ?_⟩
  · intro h
    simp only [if_pos h]
  · intro h
    simp only [if_neg (not_le.mpr h)]
  · intro hnone h
    simp only [if_neg (not_le.mpr h), hnone, Reflectance2, true_and, implies_true]

end Binding

/-- C12 counterexample: an instance with a texture bound (index 3, value
(1, 1, 1)) reads the snapshot of the preset instance, whose texture index is
-1; Deserialize succeeds, the texture is still bound afterwards, and
Reflectance2 returns the texture value (1, 1, 1), not the constant
R = (1/2, 1/2, 1/2) of the snapshot. -/
theorem C12_negative_index_keeps_texture :
    (Serialize presetInstance []).2 =
      writeSPD presetInstance.R_ ++ Prim.int (-1) ::
        (writeSPD presetInstance.eta_ ++ [Prim.float presetInstance.roughness_]) ∧
    (Deserialize texturedInstance (Serialize presetInstance []).2 stubUserdata).map
        (fun r => (r.1, r.2.1.texR_.isSome, r.2.1.R_, Reflectance2 r.2.1 identityFrame)) =
      some (true, true, ⟨1 / 2, 1 / 2, 1 / 2⟩, ⟨1, 1, 1⟩) ∧
    (⟨1, 1, 1⟩ : SPD ℚ) ≠ ⟨1 / 2, 1 / 2, 1 / 2⟩ := by
  refine ⟨rfl, rfl, ?_⟩
  simp only [ne_eq, SPD.mk.injEq, not_and]
  norm_num

/-- C12 witness: a fresh instance reads a snapshot with the texture index -1
and another with the index 4 through the stub resolver. -/
theorem C12_Deserialize_texture_witness :
    (∃ after : BSDF_CookTorrance ℚ,
      Deserialize freshInstance
          (writeSPD ⟨1 / 2, 1 / 2, 1 / 2⟩ ++ Prim.int (-1) ::
            (writeSPD ⟨1, 1, 1⟩ ++ Prim.float (1 / 10) :: [])) stubUserdata =
        some (true, after, []) ∧
      after.texR_ = none ∧
      ∀ geom, Reflectance2 after geom = ⟨1 / 2, 1 / 2, 1 / 2⟩) ∧
    (∃ after : BSDF_CookTorrance ℚ,
      Deserialize freshInstance
          (writeSPD ⟨1 / 2, 1 / 2, 1 / 2⟩ ++ Prim.int 4 ::
            (writeSPD ⟨1, 1, 1⟩ ++ Prim.float (1 / 10) :: [])) stubUserdata =
        some (true, after, []) ∧
      after.texR_.map Texture.Index = some 4) := by
  constructor
  · obtain ⟨after, h1, -, -, h4⟩ := C12_Deserialize_texture freshInstance
      (⟨1 / 2, 1 / 2, 1 / 2⟩ : SPD ℚ) ⟨1, 1, 1⟩ (-1) (1 / 10) [] stubUserdata
      ⟨fun i => some ⟨i, fun _ => ⟨0, 0, 0⟩⟩, fun _ _ _ => none⟩ rfl
    exact ⟨after, h1, (h4 rfl (by decide)).1, (h4 rfl (by decide)).2⟩
  · obtain ⟨after, h1, h2, -, -⟩ := C12_Deserialize_texture freshInstance
      (⟨1 / 2, 1 / 2, 1 / 2⟩ : SPD ℚ) ⟨1, 1, 1⟩ 4 (1 / 10) [] stubUserdata
      ⟨fun i => some ⟨i, fun _ => ⟨0, 0, 0⟩⟩, fun _ _ _ => none⟩ rfl
    refine ⟨after, h1, ?_⟩
    rw [h2 (by decide)]
    rfl

/-! ## Load -/

section Loading

variable {α : Type} [LinearOrderedField α]

/-- The scalar and the two triples that Load reads with a default. -/
theorem Load_eta_k_roughness (self : BSDF_CookTorrance α) (prop : PropertyNode α)
    (assets : Assets α) (primitive : Option Primitive) :
    (Load self prop assets primitive).2.eta_ = SPD.FromRGB
      (prop.ChildAsVec3 "eta" ⟨140000 / 1000000, 129000 / 1000000, 158500 / 1000000⟩) ∧
    (Load self prop assets primitive).2.k_ = SPD.FromRGB
      (prop.ChildAsVec3 "k" ⟨4586250 / 1000000, 3348125 / 1000000, 2329375 / 1000000⟩) ∧
    (Load self prop assets primitive).2.roughness_ = prop.ChildAsFloat "roughness" (1 / 10) :=
  ⟨rfl, rfl, rfl⟩

/-- C13 (amended): for every parameter set Load returns success; eta, k and
roughness are the parameters of those names, and FromRGB(0.14, 0.129, 0.1585),
FromRGB(4.58625, 3.348125, 2.329375) and 0.1 when they are absent; if TexR is
present the texture reference is what the registry returns for that
identifier and the type texture, a texture when the registry resolves it and
none when it returns a null pointer, and R is left as it was (the R parameter
is not read); otherwise the texture reference is left as it was before the
call, so none on an instance that had none, and R is FromRGB of the R
parameter, of (0,0,0) when it is absent. -/
theorem C13_Load_defaults_precedence (self : BSDF_CookTorrance α) (prop : PropertyNode α)
    (assets : Assets α) (primitive : Option Primitive) :
    (Load self prop assets primitive).1 = true ∧
    ((∀ v, prop.Child "eta" = some (PropValue.vec3 v) →
        (Load self prop assets primitive).2.eta_ = SPD.FromRGB v) ∧
      (prop.Child "eta" = none → (Load self prop assets primitive).2.eta_ =
        SPD.FromRGB ⟨14 / 100, 129 / 1000, 1585 / 10000⟩)) ∧
    ((∀ v, prop.Child "k" = some (PropValue.vec3 v) →
        (Load self prop assets primitive).2.k_ = SPD.FromRGB v) ∧
      (prop.Child "k" = none → (Load self prop assets primitive).2.k_ =
        SPD.FromRGB ⟨458625 / 100000, 3348125 / 1000000, 2329375 / 1000000⟩)) ∧
    ((∀ x, prop.Child "roughness" = some (PropValue.float x) →
        (Load self prop assets primitive).2.roughness_ = x) ∧
      (prop.Child "roughness" = none →
        (Load self prop assets primitive).2.roughness_ = 1 / 10)) ∧
    (∀ id, prop.Child "TexR" = some (PropValue.str id) →
      (Load self prop assets primitive).2.texR_ =
          assets.AssetByIDAndType id "texture" primitive ∧
        (Load self prop assets primitive).2.R_ = self.R_) ∧
    (prop.Child "TexR" = none →
      (Load self prop assets primitive).2.texR_ = self.texR_ ∧
      (self.texR_ = none → (Load self prop assets primitive).2.texR_ = none) ∧
      (∀ v, prop.Child "R" = some (PropValue.vec3 v) →
        (Load self prop assets primitive).2.R_ = SPD.FromRGB v) ∧
      (prop.Child "R" = none →
        (Load self prop assets primitive).2.R_ = SPD.FromRGB ⟨0, 0, 0⟩)) := by
  obtain ⟨he, hk, hr⟩ := Load_eta_k_roughness self prop assets primitive
  refine ⟨rfl, ⟨?_, ?_⟩, ⟨?_, ?_⟩, ⟨?_, ?_⟩, ?_, ?_⟩
  · intro v hv
    rw [he]
    simp only [PropertyNode.ChildAsVec3, hv]
  · intro hv
    rw [he]
    simp only [PropertyNode.ChildAsVec3, hv]
    norm_num
  · intro v hv
    rw [hk]
    simp only [PropertyNode.ChildAsVec3, hv]
  · intro hv
    rw [hk]
    simp only [PropertyNode.ChildAsVec3, hv]
    norm_num
  · intro x hx
    rw [hr]
    simp only [PropertyNode.ChildAsFloat, hx]
  · intro hx
    rw [hr]
    simp only [PropertyNode.ChildAsFloat, hx]
  · intro id hid
    simp only [Load, hid, Option.isSome_some, if_true, PropertyNode.ChildAsString, and_self]
  · intro hnone
    simp only [Load, hnone, Option.isSome_none, Bool.false_eq_true, if_false, true_and]
    refine ⟨fun h => h, ?_, ?_⟩
    · intro v hv
      simp only [PropertyNode.ChildAsVec3, hv]
    · intro hv
      simp only [PropertyNode.ChildAsVec3, hv]

/-- C14: Load with the roughness parameter equal to 0 returns success and
stores exactly 0, and Glossiness afterwards returns 0; for every value of the
roughness parameter Glossiness returns that value unchanged. -/
theorem C14_Load_zero_roughness (self : BSDF_CookTorrance α) (prop : PropertyNode α)
    (assets : Assets α) (primitive : Option Primitive) :
    (prop.Child "roughness" = some (PropValue.float 0) →
      (Load self prop assets primitive).1 = true ∧
      (Load self prop assets primitive).2.roughness_ = 0 ∧
      Glossiness (Load self prop assets primitive).2 = 0) ∧
    (∀ x, prop.Child "roughness" = some (PropValue.float x) →
      (Load self prop assets primitive).1 = true ∧
      Glossiness (Load self prop assets primitive).2 = x) := by
  obtain ⟨-, -, hr⟩ := Load_eta_k_roughness self prop assets primitive
  constructor
  · intro h
    refine ⟨rfl, ?_, ?_⟩
    · rw [hr]
      simp only [PropertyNode.ChildAsFloat, h]
    · rw [Glossiness, hr]
      simp only [PropertyNode.ChildAsFloat, h]
  · intro x h
    refine ⟨rfl, ?_⟩
    rw [Glossiness, hr]
    simp only [PropertyNode.ChildAsFloat, h]

end Loading

/-- C13 witness: a fresh instance loads parameters that name the texture
wood and give R beside it: the texture of the registry is bound, R stays the
zero spectrum of the fresh instance, and eta, k and roughness take their
defaults. -/
theorem C13_Load_defaults_precedence_witness :
    (Load freshInstance texturedParams woodAssets none).1 = true ∧
    (Load freshInstance texturedParams woodAssets none).2.texR_.map Texture.Index = some 7 ∧
    (Load freshInstance texturedParams woodAssets none).2.R_ = SPD.zero ∧
    (Load freshInstance texturedParams woodAssets none).2.eta_ =
      SPD.FromRGB ⟨14 / 100, 129 / 1000, 1585 / 10000⟩ ∧
    (Load freshInstance texturedParams woodAssets none).2.k_ =
      SPD.FromRGB ⟨458625 / 100000, 3348125 / 1000000, 2329375 / 1000000⟩ ∧
    (Load freshInstance texturedParams woodAssets none).2.roughness_ = 1 / 10 := by
  obtain ⟨h1, ⟨-, he⟩, ⟨-, hk⟩, ⟨-, hr⟩, ht, -⟩ :=
    C13_Load_defaults_precedence freshInstance texturedParams woodAssets none
  refine ⟨h1, ?_, (ht "wood" rfl).2, he rfl, hk rfl, hr rfl⟩
  rw [(ht "wood" rfl).1]
  rfl

/-- C14 witness: a fresh instance loads the roughness 0. -/
theorem C14_Load_zero_roughness_witness :
    (Load freshInstance zeroRoughnessParams woodAssets none).1 = true ∧
    (Load freshInstance zeroRoughnessParams woodAssets none).2.roughness_ = 0 ∧
    Glossiness (Load freshInstance zeroRoughnessParams woodAssets none).2 = 0 :=
  (C14_Load_zero_roughness freshInstance zeroRoughnessParams woodAssets none).1 rfl

/-! ## The Fresnel conductor term is a reflectance -/

section FresnelRange

variable {α : Type} [LinearOrderedField α]

/-- One band of the Fresnel term is at most one, for a non-negative eta and a
non-negative incidence cosine. -/
theorem fresnel_band_le_one (eta k c : α) (he : 0 ≤ eta) (hc : 0 ≤ c) :
    (((eta * eta + k * k) * (c * c) - eta * (2 * c) + 1) /
          ((eta * eta + k * k) * (c * c) + eta * (2 * c) + 1) +
        ((eta * eta + k * k) - eta * (2 * c) + c * c) /
          ((eta * eta + k * k) + eta * (2 * c) + c * c)) * (1 / 2) ≤ 1 := by
  have hec : 0 ≤ eta * c := mul_nonneg he hc
  have h2 : 0 ≤ (eta * eta + k * k) * (c * c) + eta * (2 * c) + 1 := by
    nlinarith [sq_nonneg (eta * c + 1), sq_nonneg (k * c)]
  have h4 : 0 ≤ (eta * eta + k * k) + eta * (2 * c) + c * c := by
    nlinarith [sq_nonneg (eta + c), sq_nonneg k]
  have q1 : ((eta * eta + k * k) * (c * c) - eta * (2 * c) + 1) /
      ((eta * eta + k * k) * (c * c) + eta * (2 * c) + 1) ≤ 1 :=
    div_le_one_of_le₀ (by linarith) h2
  have q2 : ((eta * eta + k * k) - eta * (2 * c) + c * c) /
      ((eta * eta + k * k) + eta * (2 * c) + c * c) ≤ 1 :=
    div_le_one_of_le₀ (by linarith) h4
  linarith

/-- The plain EvaluateFrConductor, whose quotients by zero are zero, lies in
[0, 1] in every band with eta >= 0, for an incidence cosine c >= 0. -/
theorem EvaluateFrConductor_plain_range (self : BSDF_CookTorrance α) (c : α) (hc : 0 ≤ c) :
    (0 ≤ self.eta_.v0 →
      0 ≤ (EvaluateFrConductor self c).v0 ∧ (EvaluateFrConductor self c).v0 ≤ 1) ∧
    (0 ≤ self.eta_.v1 →
      0 ≤ (EvaluateFrConductor self c).v1 ∧ (EvaluateFrConductor self c).v1 ≤ 1) ∧
    (0 ≤ self.eta_.v2 →
      0 ≤ (EvaluateFrConductor self c).v2 ∧ (EvaluateFrConductor self c).v2 ≤ 1) := by
  obtain ⟨n0, n1, n2⟩ := EvaluateFrConductor_nonneg self c
  refine ⟨fun h => ⟨n0, ?_⟩, fun h => ⟨n1, ?_⟩, fun h => ⟨n2, ?_⟩⟩ <;>
    simpa [EvaluateFrConductor] using fresnel_band_le_one _ _ c h hc

end FresnelRange

/-! ## SampleGGX is well defined -/

section SamplerRange

variable {α : Type} [LinearOrderedField α]

/-- The remapped second sample lies strictly inside the unit interval. -/
theorem ToOpenOpen_mem (m : MathFns α) (heps : 0 < m.Eps ∧ m.Eps < 1 / 2) (u : α)
    (hu : 0 ≤ u ∧ u ≤ 1) : 0 < ToOpenOpen m u ∧ ToOpenOpen m u < 1 := by
  unfold ToOpenOpen
  obtain ⟨h0, h1⟩ := heps
  obtain ⟨hu0, hu1⟩ := hu
  have hpos : 0 < 1 - 2 * m.Eps := by linarith
  constructor
  · nlinarith [mul_nonneg hpos.le hu0]
  · nlinarith [mul_nonneg hpos.le (sub_nonneg.mpr hu1)]

/-- The remapped first sample is positive, and it is one exactly when the
sample is one. -/
theorem ToOpenClosed_pos_iff (m : MathFns α) (heps : 0 < m.Eps ∧ m.Eps < 1 / 2) (u : α)
    (hu : 0 ≤ u ∧ u ≤ 1) : 0 < ToOpenClosed m u ∧ (ToOpenClosed m u = 1 ↔ u = 1) := by
  unfold ToOpenClosed
  obtain ⟨h0, h1⟩ := heps
  obtain ⟨hu0, hu1⟩ := hu
  have hpos : 0 < 1 - m.Eps := by linarith
  refine ⟨by nlinarith [mul_nonneg hpos.le hu0], ?_, ?_⟩
  · intro h
    have h3 : (1 - m.Eps) * (u - 1) = 0 := by linear_combination h
    rcases mul_eq_zero.mp h3 with h4 | h4
    · exact absurd h4 hpos.ne.symm
    · linarith
  · intro h
    rw [h]
    ring

/-- C19: for every roughness in (0,1], every epsilon in (0, 1/2) and every u
in the unit square, with a square root that is non-negative and squares back
on non-negative arguments and a cosine and sine whose squares add up to one:
the remapped u0 lies in (0,1] and u1 in (0,1), the radicand
1 - (1 - alpha^2) u0 is strictly positive, and the vector SampleGGX returns
has squared length exactly 1 and z >= 0, with z = 0 exactly when u[0] = 1. -/
theorem C19_SampleGGX_well_defined (m : MathFns α) (self : BSDF_CookTorrance α) (u : Vec2 α)
    (hnn : ∀ x, 0 ≤ m.Sqrt x)
    (hsqrt : ∀ x, 0 ≤ x → m.Sqrt x * m.Sqrt x = x)
    (htrig : ∀ x, m.Cos x * m.Cos x + m.Sin x * m.Sin x = 1)
    (heps : 0 < m.Eps ∧ m.Eps < 1 / 2)
    (hr : 0 < self.roughness_ ∧ self.roughness_ ≤ 1)
    (hu : 0 ≤ u.x ∧ u.x ≤ 1 ∧ 0 ≤ u.y ∧ u.y ≤ 1) :
    (0 < ToOpenClosed m u.x ∧ ToOpenClosed m u.x ≤ 1) ∧
    (0 < ToOpenOpen m u.y ∧ ToOpenOpen m u.y < 1) ∧
    0 < 1 - (1 - self.roughness_ * self.roughness_) * ToOpenClosed m u.x ∧
    Math.Dot (SampleGGX m self u) (SampleGGX m self u) = 1 ∧
    0 ≤ (SampleGGX m self u).z ∧
    ((SampleGGX m self u).z = 0 ↔ u.x = 1) := by
  have heps1 : 0 ≤ m.Eps ∧ m.Eps ≤ 1 := ⟨heps.1.le, by linarith [heps.2]⟩
  have hu0 := ToOpenClosed_mem m heps1 u.x ⟨hu.1, hu.2.1⟩
  have hu0p := ToOpenClosed_pos_iff m heps u.x ⟨hu.1, hu.2.1⟩
  have hden := SampleGGX_radicand_pos self.roughness_ (ToOpenClosed m u.x) hr hu0
  have hc := hsqrt _ hden.le
  have ha := hsqrt (1 - ToOpenClosed m u.x) (sub_nonneg.mpr hu0.2)
  have hne : m.Sqrt (1 - (1 - self.roughness_ * self.roughness_) * ToOpenClosed m u.x) ≠ 0 := by
    intro h0
    rw [h0] at hc
    linarith
  refine ⟨⟨hu0p.1, hu0.2⟩, ToOpenOpen_mem m heps u.y ⟨hu.2.2.1, hu.2.2.2⟩, hden,
    SampleGGX_unit m self u hsqrt htrig heps1 hr ⟨hu.1, hu.2.1⟩, ?_, ?_⟩
  · exact div_nonneg (hnn _) (hnn _)
  · show m.Sqrt (1 - ToOpenClosed m u.x) /
        m.Sqrt (1 - (1 - self.roughness_ * self.roughness_) * ToOpenClosed m u.x) = 0 ↔ _
    rw [div_eq_zero_iff, ← hu0p.2]
    constructor
    · intro h
      rcases h with h | h
      · rw [h] at ha
        linarith
      · exact absurd h hne
    · intro h
      left
      rw [h] at ha ⊢
      simp only [sub_self] at ha ⊢
      exact mul_self_eq_zero.mp ha

end SamplerRange

/-- C19 witness: the real square root, cosine, sine and pi, epsilon = 1/10000,
the unit instance and u = (1, 1/2), where z = 0. -/
theorem C19_SampleGGX_well_defined_witness :
    Math.Dot
      (SampleGGX (MathFns.ofFns Real.sqrt Real.cos Real.sin Real.pi (1 / 10000))
        unitInstance ⟨1, 1 / 2⟩)
      (SampleGGX (MathFns.ofFns Real.sqrt Real.cos Real.sin Real.pi (1 / 10000))
        unitInstance ⟨1, 1 / 2⟩) = 1 ∧
    (SampleGGX (MathFns.ofFns Real.sqrt Real.cos Real.sin Real.pi (1 / 10000))
        unitInstance ⟨1, 1 / 2⟩).z = 0 := by
  obtain ⟨-, -, -, h4, -, h6⟩ := C19_SampleGGX_well_defined
    (MathFns.ofFns Real.sqrt Real.cos Real.sin Real.pi (1 / 10000))
    unitInstance ⟨1, 1 / 2⟩
    (fun x => Real.sqrt_nonneg x)
    (fun x hx => Real.mul_self_sqrt hx)
    (fun x => by
      have h := Real.cos_sq_add_sin_sq x
      simp only [MathFns.ofFns]
      nlinarith [h])
    (by simp only [MathFns.ofFns]; norm_num)
    (by simp [unitInstance])
    (by norm_num)
  exact ⟨h4, h6.mpr rfl⟩

/-! ## The half-vector of two unit directions above the surface -/

section HalfVector

variable {α : Type} [LinearOrderedField α]

/-- EvaluateGGX divides by GGXDivisor. -/
theorem EvaluateGGX_eq_div (m : MathFns α) (self : BSDF_CookTorrance α) (H : Vec3 α) :
    EvaluateGGX m self H =
      if Math.LocalCos H ≤ 0 then 0
      else self.roughness_ * self.roughness_ / GGXDivisor m self H := rfl

/-- EvaluateFrConductor divides by FrParlDivisor and FrPerpDivisor. -/
theorem EvaluateFrConductor_eq_div (self : BSDF_CookTorrance α) (c : α) :
    EvaluateFrConductor self c =
      (((self.eta_ * self.eta_ + self.k_ * self.k_) * (c * c) -
            (self.eta_ * SPD.const (2 * c)) + SPD.const 1) / FrParlDivisor self c +
        ((self.eta_ * self.eta_ + self.k_ * self.k_) - (self.eta_ * (2 * c)) + c * c) /
          FrPerpDivisor self c) * (1 / 2 : α) := rfl

/-- The squared length of the sum of two unit vectors above the surface is
positive, and it is twice one plus their dot product. -/
theorem dot_sum_pos (wi wo : Vec3 α) (hi : Math.Dot wi wi = 1) (ho : Math.Dot wo wo = 1)
    (hiz : 0 < wi.z) (hoz : 0 < wo.z) :
    0 < Math.Dot (wi + wo) (wi + wo) ∧
      Math.Dot (wi + wo) (wi + wo) = 2 * (1 + Math.Dot wi wo) := by
  simp only [Math.Dot, Vec3.add_x, Vec3.add_y, Vec3.add_z] at *
  constructor
  · have hz : 0 < (wi.z + wo.z) * (wi.z + wo.z) := mul_pos (by linarith) (by linarith)
    nlinarith [mul_self_nonneg (wi.x + wo.x), mul_self_nonneg (wi.y + wo.y)]
  · linear_combination hi + ho

/-- For two unit vectors with positive local z and a square root that is
positive on positive arguments: the length of their sum is positive, their
half-vector has a positive local z, and both have the same, positive, dot
product with it. -/
theorem halfVector_facts (m : MathFns α) (hpos : ∀ x, 0 < x → 0 < m.Sqrt x)
    (wi wo : Vec3 α) (hi : Math.Dot wi wi = 1) (ho : Math.Dot wo wo = 1)
    (hiz : 0 < wi.z) (hoz : 0 < wo.z) :
    0 < Math.Length m (wi + wo) ∧
    0 < (Math.Normalize m (wi + wo)).z ∧
    Math.Dot wi (Math.Normalize m (wi + wo)) = Math.Dot wo (Math.Normalize m (wi + wo)) ∧
    0 < Math.Dot wo (Math.Normalize m (wi + wo)) := by
  obtain ⟨hS, hS2⟩ := dot_sum_pos wi wo hi ho hiz hoz
  have hL : 0 < Math.Length m (wi + wo) := hpos _ hS
  have h1 : 0 < 1 + Math.Dot wi wo := by linarith
  have hwo : Math.Dot wo (Math.Normalize m (wi + wo)) =
      (1 + Math.Dot wi wo) / Math.Length m (wi + wo) := by
    simp only [Math.Normalize, Math.Dot, Vec3.div_x, Vec3.div_y, Vec3.div_z, Vec3.add_x,
      Vec3.add_y, Vec3.add_z] at ho ⊢
    field_simp
    linear_combination ho
  have hwi : Math.Dot wi (Math.Normalize m (wi + wo)) =
      (1 + Math.Dot wi wo) / Math.Length m (wi + wo) := by
    simp only [Math.Normalize, Math.Dot, Vec3.div_x, Vec3.div_y, Vec3.div_z, Vec3.add_x,
      Vec3.add_y, Vec3.add_z] at hi ⊢
    field_simp
    linear_combination hi
  refine ⟨hL, ?_, by rw [hwi, hwo], by rw [hwo]; exact div_pos h1 hL⟩
  simp only [Math.Normalize, Vec3.div_z, Vec3.add_z]
  exact div_pos (by linarith) hL

/-- C18: for unit local wi and wo with positive local z and
H = normalize(wi + wo), with a square root that is positive on positive
arguments: wi . H = wo . H > 0, the value EvalauteShadowMaskingFunc computes
equals min(1, 2 (n.H)(n.wo)/(wo.H), 2 (n.H)(n.wi)/(wi.H)), and it lies in
[0, 1]. -/
theorem C18_masking_in_context (m : MathFns α) (hpos : ∀ x, 0 < x → 0 < m.Sqrt x)
    (wi wo : Vec3 α) (hi : Math.Dot wi wi = 1) (ho : Math.Dot wo wo = 1)
    (hiz : 0 < wi.z) (hoz : 0 < wo.z) :
    Math.Dot wi (Math.Normalize m (wi + wo)) = Math.Dot wo (Math.Normalize m (wi + wo)) ∧
    0 < Math.Dot wo (Math.Normalize m (wi + wo)) ∧
    EvalauteShadowMaskingFunc wi wo (Math.Normalize m (wi + wo)) =
      specShadowMasking wi wo (Math.Normalize m (wi + wo)) ∧
    0 ≤ EvalauteShadowMaskingFunc wi wo (Math.Normalize m (wi + wo)) ∧
    EvalauteShadowMaskingFunc wi wo (Math.Normalize m (wi + wo)) ≤ 1 := by
  obtain ⟨-, hHz, heq, hwo⟩ := halfVector_facts m hpos wi wo hi ho hiz hoz
  refine ⟨heq, hwo, ?_, ?_, ?_⟩
  · simp only [EvalauteShadowMaskingFunc, specShadowMasking, Math.LocalCos, heq,
      abs_of_pos hwo]
  · exact EvalauteShadowMaskingFunc_nonneg wi wo _ hiz.le hoz.le hHz.le
  · exact min_le_left _ _

end HalfVector

/-- C18 witness: the real square root, wi the normal and
wo = (24/25, 0, 7/25). -/
theorem C18_masking_in_context_witness :
    EvalauteShadowMaskingFunc (⟨0, 0, 1⟩ : Vec3 ℝ) ⟨24 / 25, 0, 7 / 25⟩
        (Math.Normalize (MathFns.ofFns Real.sqrt Real.cos Real.sin Real.pi (1 / 10000))
          ((⟨0, 0, 1⟩ : Vec3 ℝ) + ⟨24 / 25, 0, 7 / 25⟩)) =
      specShadowMasking (⟨0, 0, 1⟩ : Vec3 ℝ) ⟨24 / 25, 0, 7 / 25⟩
        (Math.Normalize (MathFns.ofFns Real.sqrt Real.cos Real.sin Real.pi (1 / 10000))
          ((⟨0, 0, 1⟩ : Vec3 ℝ) + ⟨24 / 25, 0, 7 / 25⟩)) ∧
    EvalauteShadowMaskingFunc (⟨0, 0, 1⟩ : Vec3 ℝ) ⟨24 / 25, 0, 7 / 25⟩
        (Math.Normalize (MathFns.ofFns Real.sqrt Real.cos Real.sin Real.pi (1 / 10000))
          ((⟨0, 0, 1⟩ : Vec3 ℝ) + ⟨24 / 25, 0, 7 / 25⟩)) ≤ 1 := by
  obtain ⟨-, -, h3, -, h5⟩ := C18_masking_in_context
    (MathFns.ofFns Real.sqrt Real.cos Real.sin Real.pi (1 / 10000))
    (fun x hx => Real.sqrt_pos.mpr hx)
    (⟨0, 0, 1⟩ : Vec3 ℝ) ⟨24 / 25, 0, 7 / 25⟩
    (by norm_num [Math.Dot]) (by norm_num [Math.Dot]) (by norm_num) (by norm_num)
  exact ⟨h3, h5⟩

/-! ## The divisors in exact arithmetic -/

section NoZeroDivisor

variable {α : Type} [LinearOrderedField α]

end NoZeroDivisor

/-! ## The sampled half-vector is the one the evaluations use -/

section LockStep

variable {α : Type} [LinearOrderedField α]

/-- The sum of a vector and its reflection about H is twice its projection
on H. -/
theorem add_reflect (w H : Vec3 α) :
    w + (-w - (2 * Math.Dot (-w) H) * H) = (2 * Math.Dot w H) * H := by
  rw [Vec3_ext_iff3]
  simp only [Math.Dot, Vec3.add_x, Vec3.add_y, Vec3.add_z, Vec3.sub_x, Vec3.sub_y,
    Vec3.sub_z, Vec3.neg_x, Vec3.neg_y, Vec3.neg_z, Vec3.smul_x, Vec3.smul_y, Vec3.smul_z]
  refine ⟨?_, ?_, ?_⟩ <;> ring

/-- Normalizing a positive multiple of a unit vector gives the unit vector. -/
theorem Normalize_smul_unit (m : MathFns α) (hsq : ∀ x, 0 ≤ x → m.Sqrt (x * x) = x)
    (s : α) (hs : 0 < s) (H : Vec3 α) (hH : Math.Dot H H = 1) :
    Math.Normalize m (s * H) = H := by
  have hlen : Math.Length m (s * H) = s := by
    have e : Math.Dot (s * H) (s * H) = s * s := by
      simp only [Math.Dot, Vec3.smul_x, Vec3.smul_y, Vec3.smul_z] at hH ⊢
      linear_combination (s * s) * hH
    rw [Math.Length, e, hsq s hs.le]
  rw [Vec3_ext_iff3]
  simp only [Math.Normalize, hlen, Vec3.div_x, Vec3.div_y, Vec3.div_z, Vec3.smul_x,
    Vec3.smul_y, Vec3.smul_z]
  have hne : s ≠ 0 := hs.ne.symm
  refine ⟨?_, ?_, ?_⟩ <;> field_simp

/-- C17: for every local wi_l with positive z, unit or not, and every unit
half-vector H with z >= 0, with a square root that returns x on x * x for
x >= 0: if the
reflected vector wo_l = -wi_l - 2 (-wi_l . H) H has a positive z, then
wi_l . H > 0 and normalize(wi_l + wo_l) = H; hence, in every orthonormal
frame and for every wi with ToLocal * wi = wi_l, EvaluateDirectionPDF and
EvaluateDirection on the pair wi, ToWorld * wo_l evaluate the normal
distribution at H itself. -/
theorem C17_sampler_pdf_lock_step (m : MathFns α) (hsq : ∀ x, 0 ≤ x → m.Sqrt (x * x) = x)
    (wi_l H wo_l : Vec3 α) (hiz : 0 < wi_l.z)
    (hH : Math.Dot H H = 1) (hHz : 0 ≤ H.z)
    (hwo : wo_l = -wi_l - (2 * Math.Dot (-wi_l) H) * H) (hoz : 0 < wo_l.z) :
    0 < Math.Dot wi_l H ∧
    Math.Normalize m (wi_l + wo_l) = H ∧
    (∀ (self : BSDF_CookTorrance α) (geom : SurfaceGeometry α) (wi : Vec3 α)
        (queryType : Int) (evalDelta : Bool),
      geom.Orthonormal → geom.ToLocal * wi = wi_l →
      EvaluateDirectionPDF m self geom queryType wi (geom.ToWorld * wo_l) evalDelta =
        ⟨PDFMeasure.ProjectedSolidAngle,
          EvaluateNormalDist m self H * Math.LocalCos H / (4 * Math.Dot wo_l H) /
            Math.LocalCos wo_l⟩) ∧
    (∀ (snc : SurfaceGeometry α → Vec3 α → Vec3 α → TransportDirection → α)
        (self : BSDF_CookTorrance α) (geom : SurfaceGeometry α) (wi : Vec3 α)
        (types : Int) (transDir : TransportDirection) (evalDelta : Bool),
      geom.Orthonormal → geom.ToLocal * wi = wi_l →
      EvaluateDirection m snc self geom types wi (geom.ToWorld * wo_l) transDir evalDelta =
        Reflectance2 self geom * EvaluateNormalDist m self H *
          EvalauteShadowMaskingFunc wi_l wo_l H * EvaluateFrConductor self (Math.Dot wi_l H) /
          (4 * Math.LocalCos wi_l) / Math.LocalCos wo_l *
          snc geom wi (geom.ToWorld * wo_l) transDir) := by
  have hd : 0 < Math.Dot wi_l H := by
    have hz : wo_l.z = -wi_l.z + 2 * Math.Dot wi_l H * H.z := by
      rw [hwo]
      simp only [Math.Dot, Vec3.sub_z, Vec3.neg_x, Vec3.neg_y, Vec3.neg_z, Vec3.smul_z]
      ring
    by_contra hneg
    have hle : Math.Dot wi_l H ≤ 0 := not_lt.mp hneg
    have := mul_nonneg (neg_nonneg.mpr hle) hHz
    nlinarith
  have hn : Math.Normalize m (wi_l + wo_l) = H := by
    rw [hwo, add_reflect]
    exact Normalize_smul_unit m hsq _ (by linarith) H hH
  refine ⟨hd, hn, ?_, ?_⟩
  · intro self geom wi queryType evalDelta hg hl
    unfold EvaluateDirectionPDF
    simp only [hl, Orthonormal.ToLocal_ToWorld geom hg, hn, Math.LocalCos]
    rw [if_neg (not_or.mpr ⟨not_le.mpr hiz, not_le.mpr hoz⟩)]
  · intro snc self geom wi types transDir evalDelta hg hl
    unfold EvaluateDirection
    simp only [hl, Orthonormal.ToLocal_ToWorld geom hg, hn, Math.LocalCos]
    rw [if_neg (not_or.mpr ⟨not_le.mpr hiz, not_le.mpr hoz⟩)]
    rfl

end LockStep

/-- C17 witness: on the reals, wi_l the normal, H = (3/5, 0, 4/5) and the
reflected vector wo_l = (24/25, 0, 7/25). -/
theorem C17_sampler_pdf_lock_step_witness :
    0 < Math.Dot (⟨0, 0, 1⟩ : Vec3 ℝ) ⟨3 / 5, 0, 4 / 5⟩ ∧
    Math.Normalize (MathFns.ofFns Real.sqrt Real.cos Real.sin Real.pi (1 / 10000))
      ((⟨0, 0, 1⟩ : Vec3 ℝ) + ⟨24 / 25, 0, 7 / 25⟩) = ⟨3 / 5, 0, 4 / 5⟩ := by
  obtain ⟨h1, h2, -⟩ := C17_sampler_pdf_lock_step
    (MathFns.ofFns Real.sqrt Real.cos Real.sin Real.pi (1 / 10000))
    (fun x hx => Real.sqrt_mul_self hx)
    (⟨0, 0, 1⟩ : Vec3 ℝ) ⟨3 / 5, 0, 4 / 5⟩ ⟨24 / 25, 0, 7 / 25⟩
    (by norm_num) (by norm_num [Math.Dot]) (by norm_num)
    (by
      rw [Vec3_ext_iff3]
      simp only [Math.Dot, Vec3.sub_x, Vec3.sub_y, Vec3.sub_z, Vec3.neg_x, Vec3.neg_y,
        Vec3.neg_z, Vec3.smul_x, Vec3.smul_y, Vec3.smul_z]
      norm_num)
    (by norm_num)
  exact ⟨h1, h2⟩

/-! ## SampleGGX inverts the distribution function of the GGX density -/

/-- The divisor a^2 cos^2 t + sin^2 t is positive. -/
theorem ggx_cdf_den_pos (a : ℝ) (ha : 0 < a) (t : ℝ) :
    0 < a ^ 2 * Real.cos t ^ 2 + Real.sin t ^ 2 := by
  have hcs := Real.cos_sq_add_sin_sq t
  have ha2 : 0 < a ^ 2 := pow_pos ha 2
  rcases (sq_nonneg (Real.sin t)).lt_or_eq with hs | hs
  · have : 0 ≤ a ^ 2 * Real.cos t ^ 2 := mul_nonneg ha2.le (sq_nonneg _)
    linarith
  · have hc : Real.cos t ^ 2 = 1 := by linarith
    rw [hc, ← hs]
    linarith

/-- The distribution function sin^2 t / (a^2 cos^2 t + sin^2 t) and its
derivative. -/
theorem ggx_cdf_hasDerivAt (a : ℝ) (ha : 0 < a) (t : ℝ) :
    HasDerivAt (fun t => Real.sin t ^ 2 / (a ^ 2 * Real.cos t ^ 2 + Real.sin t ^ 2))
      (2 * a ^ 2 * Real.sin t * Real.cos t /
        (a ^ 2 * Real.cos t ^ 2 + Real.sin t ^ 2) ^ 2) t := by
  have hden := (ggx_cdf_den_pos a ha t).ne.symm
  have hs := (Real.hasDerivAt_sin t).pow 2
  have hc := (Real.hasDerivAt_cos t).pow 2
  have hd := (hc.const_mul (a ^ 2)).add hs
  have h := hs.div hd hden
  refine h.congr_deriv ?_
  have hcs := Real.cos_sq_add_sin_sq t
  simp only [Nat.cast_ofNat, Nat.add_one_sub_one, pow_one]
  field_simp
  linear_combination (2 * a ^ 2 * Real.sin t * Real.cos t) * hcs

/-- The z component that SampleGGX returns, for a remapped sample in (0,1). -/
theorem ggx_sample_z (a u0 : ℝ) (ha : 0 < a) (h0 : 0 < u0) (h1 : u0 < 1) :
    0 < 1 - (1 - a * a) * u0 ∧
    0 < Real.sqrt (1 - u0) / Real.sqrt (1 - (1 - a * a) * u0) ∧
    Real.sqrt (1 - u0) / Real.sqrt (1 - (1 - a * a) * u0) ≤ 1 ∧
    (Real.sqrt (1 - u0) / Real.sqrt (1 - (1 - a * a) * u0)) ^ 2 =
      (1 - u0) / (1 - (1 - a * a) * u0) := by
  have hden : 0 < 1 - (1 - a * a) * u0 := by nlinarith [mul_pos (mul_pos ha ha) h0]
  have hnum : 0 < 1 - u0 := by linarith
  have hz : 0 < Real.sqrt (1 - u0) / Real.sqrt (1 - (1 - a * a) * u0) :=
    div_pos (Real.sqrt_pos.mpr hnum) (Real.sqrt_pos.mpr hden)
  have hsq : (Real.sqrt (1 - u0) / Real.sqrt (1 - (1 - a * a) * u0)) ^ 2 =
      (1 - u0) / (1 - (1 - a * a) * u0) := by
    rw [div_pow, Real.sq_sqrt hnum.le, Real.sq_sqrt hden.le]
  refine ⟨hden, hz, ?_, hsq⟩
  have hle : (1 - u0) / (1 - (1 - a * a) * u0) ≤ 1 := by
    rw [div_le_one hden]
    nlinarith [mul_pos (mul_pos ha ha) h0]
  by_contra hgt
  have hgt1 : 1 < Real.sqrt (1 - u0) / Real.sqrt (1 - (1 - a * a) * u0) := not_le.mp hgt
  nlinarith

/-- The integrand D(t) cos t sin t, where the cosine is positive, is the
derivative of the distribution function over 2 pi. -/
theorem ggx_integrand_eq (eps : ℝ) (self : BSDF_CookTorrance ℝ) (ha : 0 < self.roughness_)
    (x y t : ℝ) (hc : 0 < Real.cos t) :
    EvaluateGGX (MathFns.ofFns Real.sqrt Real.cos Real.sin Real.pi eps) self
        ⟨x, y, Real.cos t⟩ * Real.cos t * Real.sin t =
      1 / (2 * Real.pi) * (2 * self.roughness_ ^ 2 * Real.sin t * Real.cos t /
        (self.roughness_ ^ 2 * Real.cos t ^ 2 + Real.sin t ^ 2) ^ 2) := by
  have hcs := Real.cos_sq_add_sin_sq t
  have hden := (ggx_cdf_den_pos self.roughness_ ha t).ne.symm
  have hrad : 0 ≤ 1 - Real.cos t * Real.cos t := by nlinarith [sq_nonneg (Real.sin t)]
  have htan : Real.sqrt (1 - Real.cos t * Real.cos t) / Real.cos t *
      (Real.sqrt (1 - Real.cos t * Real.cos t) / Real.cos t) =
      Real.sin t ^ 2 / Real.cos t ^ 2 := by
    rw [div_mul_div_comm, Real.mul_self_sqrt hrad]
    congr 1
    · linarith
    · ring
  simp only [EvaluateGGX, MathFns.ofFns, Math.LocalTan, Math.LocalCos]
  rw [if_neg (not_le.mpr hc), htan]
  have hpi : Real.pi ≠ 0 := Real.pi_pos.ne.symm
  have hc0 : Real.cos t ≠ 0 := hc.ne.symm
  have hden2 : self.roughness_ * self.roughness_ * Real.cos t ^ 2 + Real.sin t ^ 2 ≠ 0 := by
    rw [← pow_two]
    exact hden
  field_simp
  ring

/-- The integral of D(t) cos t sin t from 0 to an angle below pi/2, times
2 pi, is the distribution function at that angle. -/
theorem ggx_integral_eq (eps : ℝ) (self : BSDF_CookTorrance ℝ) (ha : 0 < self.roughness_)
    (psi theta : ℝ) (h0 : 0 ≤ theta) (h1 : theta < Real.pi / 2) :
    2 * Real.pi * ∫ t in (0 : ℝ)..theta,
        EvaluateGGX (MathFns.ofFns Real.sqrt Real.cos Real.sin Real.pi eps) self
          ⟨Real.sin t * Real.cos psi, Real.sin t * Real.sin psi, Real.cos t⟩ *
          Real.cos t * Real.sin t =
      Real.sin theta ^ 2 /
        (self.roughness_ ^ 2 * Real.cos theta ^ 2 + Real.sin theta ^ 2) := by
  have hcongr : Set.EqOn
      (fun t => EvaluateGGX (MathFns.ofFns Real.sqrt Real.cos Real.sin Real.pi eps) self
          ⟨Real.sin t * Real.cos psi, Real.sin t * Real.sin psi, Real.cos t⟩ *
          Real.cos t * Real.sin t)
      (fun t => 1 / (2 * Real.pi) * (2 * self.roughness_ ^ 2 * Real.sin t * Real.cos t /
        (self.roughness_ ^ 2 * Real.cos t ^ 2 + Real.sin t ^ 2) ^ 2))
      (Set.uIcc 0 theta) := by
    intro t ht
    rw [Set.uIcc_of_le h0] at ht
    have hpos : 0 < Real.cos t :=
      Real.cos_pos_of_mem_Ioo ⟨by linarith [ht.1, Real.pi_pos], by linarith [ht.2]⟩
    exact ggx_integrand_eq eps self ha _ _ t hpos
  have hcont : Continuous (fun t => 2 * self.roughness_ ^ 2 * Real.sin t * Real.cos t /
        (self.roughness_ ^ 2 * Real.cos t ^ 2 + Real.sin t ^ 2) ^ 2) := by
    apply Continuous.div
    · fun_prop
    · fun_prop
    · intro t
      exact pow_ne_zero 2 (ggx_cdf_den_pos self.roughness_ ha t).ne.symm
  rw [intervalIntegral.integral_congr hcongr, intervalIntegral.integral_const_mul,
    intervalIntegral.integral_eq_sub_of_hasDerivAt
      (fun t _ => ggx_cdf_hasDerivAt self.roughness_ ha t) (hcont.intervalIntegrable 0 theta)]
  have hpi : Real.pi ≠ 0 := Real.pi_pos.ne.symm
  have hden := (ggx_cdf_den_pos self.roughness_ ha theta).ne.symm
  simp only [Real.sin_zero, Real.cos_zero]
  field_simp
  ring

/-- C15: on the reals, with the real square root, cosine, sine and pi, for
every roughness alpha > 0 and every sample whose remapped u0 lies in (0,1):
the polar angle theta of the half-vector SampleGGX returns, the arc cosine of
its z, satisfies tan^2(theta) = alpha^2 u0 / (1 - u0); 2 pi times the integral
from 0 to theta of D(t) cos t sin t, D(t) being EvaluateGGX on a half-vector
of polar angle t and any azimuth, is u0; and the half-vector is
(sin theta cos phi, sin theta sin phi, cos theta) with the azimuth
phi = pi (2 u1 - 1), which lies in (-pi, pi) for a remapped u1 in (0,1). -/
theorem C15_SampleGGX_inverse_cdf (eps : ℝ) (self : BSDF_CookTorrance ℝ) (u : Vec2 ℝ)
    (ha : 0 < self.roughness_)
    (h0 : 0 < ToOpenClosed (MathFns.ofFns Real.sqrt Real.cos Real.sin Real.pi eps) u.x)
    (h1 : ToOpenClosed (MathFns.ofFns Real.sqrt Real.cos Real.sin Real.pi eps) u.x < 1) :
    Real.tan (Real.arccos
        (SampleGGX (MathFns.ofFns Real.sqrt Real.cos Real.sin Real.pi eps) self u).z) ^ 2 =
      self.roughness_ ^ 2 *
        ToOpenClosed (MathFns.ofFns Real.sqrt Real.cos Real.sin Real.pi eps) u.x /
        (1 - ToOpenClosed (MathFns.ofFns Real.sqrt Real.cos Real.sin Real.pi eps) u.x) ∧
    (∀ psi : ℝ, 2 * Real.pi * ∫ t in (0 : ℝ)..Real.arccos
        (SampleGGX (MathFns.ofFns Real.sqrt Real.cos Real.sin Real.pi eps) self u).z,
        EvaluateGGX (MathFns.ofFns Real.sqrt Real.cos Real.sin Real.pi eps) self
          ⟨Real.sin t * Real.cos psi, Real.sin t * Real.sin psi, Real.cos t⟩ *
          Real.cos t * Real.sin t =
      ToOpenClosed (MathFns.ofFns Real.sqrt Real.cos Real.sin Real.pi eps) u.x) ∧
    SampleGGX (MathFns.ofFns Real.sqrt Real.cos Real.sin Real.pi eps) self u =
      ⟨Real.sin (Real.arccos
          (SampleGGX (MathFns.ofFns Real.sqrt Real.cos Real.sin Real.pi eps) self u).z) *
          Real.cos (Real.pi *
            (2 * ToOpenOpen (MathFns.ofFns Real.sqrt Real.cos Real.sin Real.pi eps) u.y - 1)),
        Real.sin (Real.arccos
          (SampleGGX (MathFns.ofFns Real.sqrt Real.cos Real.sin Real.pi eps) self u).z) *
          Real.sin (Real.pi *
            (2 * ToOpenOpen (MathFns.ofFns Real.sqrt Real.cos Real.sin Real.pi eps) u.y - 1)),
        Real.cos (Real.arccos
          (SampleGGX (MathFns.ofFns Real.sqrt Real.cos Real.sin Real.pi eps) self u).z)⟩ ∧
    (0 < ToOpenOpen (MathFns.ofFns Real.sqrt Real.cos Real.sin Real.pi eps) u.y →
      ToOpenOpen (MathFns.ofFns Real.sqrt Real.cos Real.sin Real.pi eps) u.y < 1 →
      -Real.pi < Real.pi *
          (2 * ToOpenOpen (MathFns.ofFns Real.sqrt Real.cos Real.sin Real.pi eps) u.y - 1) ∧
        Real.pi *
          (2 * ToOpenOpen (MathFns.ofFns Real.sqrt Real.cos Real.sin Real.pi eps) u.y - 1) <
          Real.pi) := by
  generalize hu0 : ToOpenClosed (MathFns.ofFns Real.sqrt Real.cos Real.sin Real.pi eps) u.x = u0
    at h0 h1 ⊢
  generalize hu1 : ToOpenOpen (MathFns.ofFns Real.sqrt Real.cos Real.sin Real.pi eps) u.y = u1
  obtain ⟨hden, hz0, hz1, hzsq⟩ := ggx_sample_z self.roughness_ u0 ha h0 h1
  have hzdef : (SampleGGX (MathFns.ofFns Real.sqrt Real.cos Real.sin Real.pi eps) self u).z =
      Real.sqrt (1 - u0) / Real.sqrt (1 - (1 - self.roughness_ * self.roughness_) * u0) := by
    rw [← hu0]
    rfl
  have hxdef : (SampleGGX (MathFns.ofFns Real.sqrt Real.cos Real.sin Real.pi eps) self u).x =
      self.roughness_ * (Real.sqrt u0 /
        Real.sqrt (1 - (1 - self.roughness_ * self.roughness_) * u0)) *
        Real.cos (Real.pi * (2 * u1 - 1)) := by
    rw [← hu0, ← hu1]
    rfl
  have hydef : (SampleGGX (MathFns.ofFns Real.sqrt Real.cos Real.sin Real.pi eps) self u).y =
      self.roughness_ * (Real.sqrt u0 /
        Real.sqrt (1 - (1 - self.roughness_ * self.roughness_) * u0)) *
        Real.sin (Real.pi * (2 * u1 - 1)) := by
    rw [← hu0, ← hu1]
    rfl
  generalize (SampleGGX (MathFns.ofFns Real.sqrt Real.cos Real.sin Real.pi eps) self u) = Hs
    at hzdef hxdef hydef ⊢
  rw [← hzdef] at hz0 hz1 hzsq
  have hcos : Real.cos (Real.arccos Hs.z) = Hs.z := Real.cos_arccos (by linarith) hz1
  have hone : 1 - Hs.z ^ 2 =
      self.roughness_ ^ 2 * u0 / (1 - (1 - self.roughness_ * self.roughness_) * u0) := by
    rw [hzsq]
    field_simp
    ring
  have hnum : (0 : ℝ) < 1 - u0 := by linarith
  refine ⟨?_, ?_, ?_, ?_⟩
  · rw [Real.tan_arccos, div_pow, Real.sq_sqrt (by rw [hone]; positivity), hone, hzsq]
    field_simp
  · intro psi
    rw [ggx_integral_eq eps self ha psi _ (Real.arccos_nonneg _)
      (Real.arccos_lt_pi_div_two.mpr hz0), hcos, Real.sin_arccos,
      Real.sq_sqrt (by rw [hone]; positivity), hone, hzsq]
    have ha0 : self.roughness_ ≠ 0 := ha.ne.symm
    field_simp
    ring
  · have hsin : Real.sin (Real.arccos Hs.z) = self.roughness_ * (Real.sqrt u0 /
        Real.sqrt (1 - (1 - self.roughness_ * self.roughness_) * u0)) := by
      have hX : 0 ≤ self.roughness_ * (Real.sqrt u0 /
          Real.sqrt (1 - (1 - self.roughness_ * self.roughness_) * u0)) := by positivity
      rw [Real.sin_arccos, ← Real.sqrt_sq hX]
      congr 1
      rw [hone, mul_pow, div_pow, Real.sq_sqrt h0.le, Real.sq_sqrt hden.le]
      ring
    rw [Vec3_ext_iff3]
    simp only [hsin, hcos]
    exact ⟨hxdef, hydef, trivial⟩
  · intro hp hq
    have hpi := Real.pi_pos
    constructor
    · nlinarith
    · nlinarith

/-- C15 witness: epsilon = 1/10000, the unit instance (alpha = 1) and
u = (1/2, 1/2), whose remapped u0 is 10001/20000. -/
theorem C15_SampleGGX_inverse_cdf_witness :
    ToOpenClosed (MathFns.ofFns Real.sqrt Real.cos Real.sin Real.pi (1 / 10000)) (1 / 2) =
      10001 / 20000 ∧
    Real.tan (Real.arccos
        (SampleGGX (MathFns.ofFns Real.sqrt Real.cos Real.sin Real.pi (1 / 10000))
          unitInstance ⟨1 / 2, 1 / 2⟩).z) ^ 2 =
      (1 : ℝ) ^ 2 * (10001 / 20000) / (1 - 10001 / 20000) ∧
    2 * Real.pi * ∫ t in (0 : ℝ)..Real.arccos
        (SampleGGX (MathFns.ofFns Real.sqrt Real.cos Real.sin Real.pi (1 / 10000))
          unitInstance ⟨1 / 2, 1 / 2⟩).z,
        EvaluateGGX (MathFns.ofFns Real.sqrt Real.cos Real.sin Real.pi (1 / 10000))
          unitInstance
          ⟨Real.sin t * Real.cos 0, Real.sin t * Real.sin 0, Real.cos t⟩ *
          Real.cos t * Real.sin t = 10001 / 20000 := by
  have hu : ToOpenClosed (MathFns.ofFns Real.sqrt Real.cos Real.sin Real.pi (1 / 10000))
      (1 / 2) = 10001 / 20000 := by
    simp only [ToOpenClosed, MathFns.ofFns]
    norm_num
  obtain ⟨h1, h2, -⟩ := C15_SampleGGX_inverse_cdf (1 / 10000) unitInstance ⟨1 / 2, 1 / 2⟩
    (by simp [unitInstance]) (by rw [hu]; norm_num) (by rw [hu]; norm_num)
  rw [hu] at h1 h2
  exact ⟨hu, h1, h2 0⟩

/-! ## The evaluation with a partial division -/

section CheckedFacts

variable {α : Type} [LinearOrderedField α]

/-- A quotient with a non-zero divisor has its value. -/
theorem checkedDiv_of_ne (a : α) {b : α} (h : b ≠ 0) : checkedDiv a b = some (a / b) := by
  simp [checkedDiv, h]

/-- A quotient with a zero divisor has no value. -/
theorem checkedDiv_zero (a : α) : checkedDiv a 0 = none := by
  simp [checkedDiv]

/-- A quotient that has a value has a non-zero divisor. -/
theorem checkedDiv_eq_some {a b v : α} (h : checkedDiv a b = some v) : b ≠ 0 ∧ v = a / b := by
  unfold checkedDiv at h
  split at h
  · exact absurd h (by simp)
  · rename_i hb
    exact ⟨hb, (Option.some.inj h).symm⟩

/-- EvaluateGGXChecked divides by GGXDivisor. -/
theorem EvaluateGGXChecked_eq (m : MathFns α) (self : BSDF_CookTorrance α) (H : Vec3 α) :
    EvaluateGGXChecked m self H =
      if H.z ≤ 0 then some 0
      else checkedDiv (self.roughness_ * self.roughness_) (GGXDivisor m self H) := rfl

/-- EvaluateGGXChecked, when it has a value, has the value of the plain
EvaluateGGX. -/
theorem EvaluateGGXChecked_eq_some {m : MathFns α} {self : BSDF_CookTorrance α} {H : Vec3 α}
    {D : α} (h : EvaluateGGXChecked m self H = some D) : D = EvaluateGGX m self H := by
  rw [EvaluateGGXChecked_eq] at h
  rw [EvaluateGGX_eq_div]
  simp only [Math.LocalCos]
  split at h
  · rename_i hz
    rw [if_pos hz]
    exact (Option.some.inj h).symm
  · rename_i hz
    rw [if_neg hz]
    exact (checkedDiv_eq_some h).2

/-- C11 (amended): for every half-vector H and roughness alpha, EvaluateGGX,
computed with the partial division, is 0 when cos(theta_H), the local z of H,
is not positive; otherwise it divides alpha^2 by
pi cos^4(theta_H) (alpha^2 + tan^2(theta_H))^2, the tangent being
Math::LocalTan of H: it is that quotient where the divisor is not zero and has
no value where the divisor is zero; and, pi being non-negative, every value it
has is non-negative. -/
theorem C11_EvaluateGGXChecked_formula (m : MathFns α) (self : BSDF_CookTorrance α)
    (H : Vec3 α) :
    (H.z ≤ 0 → EvaluateGGXChecked m self H = some 0) ∧
    GGXDivisor m self H =
      m.Pi * H.z ^ 4 * (self.roughness_ ^ 2 + m.LocalTan H ^ 2) ^ 2 ∧
    (0 < H.z → GGXDivisor m self H ≠ 0 →
      EvaluateGGXChecked m self H = some (self.roughness_ ^ 2 /
        (m.Pi * H.z ^ 4 * (self.roughness_ ^ 2 + m.LocalTan H ^ 2) ^ 2))) ∧
    (0 < H.z → GGXDivisor m self H = 0 → EvaluateGGXChecked m self H = none) ∧
    (0 ≤ m.Pi → ∀ D, EvaluateGGXChecked m self H = some D → 0 ≤ D) := by
  have hdiv : GGXDivisor m self H =
      m.Pi * H.z ^ 4 * (self.roughness_ ^ 2 + m.LocalTan H ^ 2) ^ 2 := by
    simp only [GGXDivisor, Math.LocalCos]
    ring
  refine ⟨fun h => ?_, hdiv, fun hz hne => ?_, fun hz h0 => ?_, fun hpi D hD => ?_⟩
  · rw [EvaluateGGXChecked_eq, if_pos h]
  · rw [EvaluateGGXChecked_eq, if_neg (not_le.mpr hz), checkedDiv_of_ne _ hne, hdiv]
    congr 2
    ring
  · rw [EvaluateGGXChecked_eq, if_neg (not_le.mpr hz), h0, checkedDiv_zero]
  · rw [EvaluateGGXChecked_eq_some hD]
    exact EvaluateGGX_nonneg m hpi self H

end CheckedFacts

/-! ### Zero roughness at normal incidence, on the reals

The instance with roughness 0 in the identity frame, wi = wo = (0, 0, 1): both
guards pass, the half-vector is the normal, its tangent is 0, and line 197
divides alpha^2 = 0 by pi (0 + 0)^2 = 0. -/

/-- The divisor of GGX is zero for the roughness 0 at the normal. -/
theorem real_GGXDivisor_zero_roughness :
    GGXDivisor (MathFns.ofFns Real.sqrt Real.cos Real.sin Real.pi (1 / 10000))
      (zeroRoughnessInstance : BSDF_CookTorrance ℝ) ⟨0, 0, 1⟩ = 0 := by
  simp [GGXDivisor, MathFns.ofFns, Math.LocalTan, Math.LocalCos, zeroRoughnessInstance]

/-- The normal distribution has no value for the roughness 0 at the normal. -/
theorem real_GGXChecked_zero_roughness :
    EvaluateGGXChecked (MathFns.ofFns Real.sqrt Real.cos Real.sin Real.pi (1 / 10000))
      (zeroRoughnessInstance : BSDF_CookTorrance ℝ) ⟨0, 0, 1⟩ = none := by
  rw [EvaluateGGXChecked_eq, if_neg (by norm_num), real_GGXDivisor_zero_roughness,
    checkedDiv_zero]

/-- C11 counterexample: for the roughness alpha = 0 and the half-vector
H = (0, 0, 1), whose cosine is 1 > 0 and whose tangent is 0, the numerator
alpha^2 and the divisor pi cos^4 (alpha^2 + tan^2)^2 are both zero, so
EvaluateGGX has no value there, and none that is >= 0. -/
theorem C11_zero_roughness_counterexample :
    (0 : ℝ) < (⟨0, 0, 1⟩ : Vec3 ℝ).z ∧
    (zeroRoughnessInstance : BSDF_CookTorrance ℝ).roughness_ *
      (zeroRoughnessInstance : BSDF_CookTorrance ℝ).roughness_ = 0 ∧
    GGXDivisor (MathFns.ofFns Real.sqrt Real.cos Real.sin Real.pi (1 / 10000))
      (zeroRoughnessInstance : BSDF_CookTorrance ℝ) ⟨0, 0, 1⟩ = 0 ∧
    EvaluateGGXChecked (MathFns.ofFns Real.sqrt Real.cos Real.sin Real.pi (1 / 10000))
      (zeroRoughnessInstance : BSDF_CookTorrance ℝ) ⟨0, 0, 1⟩ = none ∧
    ¬ ∃ D, EvaluateGGXChecked (MathFns.ofFns Real.sqrt Real.cos Real.sin Real.pi (1 / 10000))
      (zeroRoughnessInstance : BSDF_CookTorrance ℝ) ⟨0, 0, 1⟩ = some D ∧ 0 ≤ D := by
  refine ⟨by norm_num, by simp [zeroRoughnessInstance], real_GGXDivisor_zero_roughness,
    real_GGXChecked_zero_roughness, ?_⟩
  rw [real_GGXChecked_zero_roughness]
  rintro ⟨D, hD, -⟩
  exact absurd hD (by simp)

/-- C11 witness: on the reals, the unit instance (alpha = 1) and the
half-vector (3/5, 0, 4/5), above the surface, where the divisor is pi and the
density is 1/pi. -/
theorem C11_EvaluateGGXChecked_formula_witness :
    GGXDivisor (MathFns.ofFns Real.sqrt Real.cos Real.sin Real.pi (1 / 10000))
      (unitInstance : BSDF_CookTorrance ℝ) ⟨3 / 5, 0, 4 / 5⟩ = Real.pi ∧
    EvaluateGGXChecked (MathFns.ofFns Real.sqrt Real.cos Real.sin Real.pi (1 / 10000))
      (unitInstance : BSDF_CookTorrance ℝ) ⟨3 / 5, 0, 4 / 5⟩ = some (1 / Real.pi) := by
  have hdiv : GGXDivisor (MathFns.ofFns Real.sqrt Real.cos Real.sin Real.pi (1 / 10000))
      (unitInstance : BSDF_CookTorrance ℝ) ⟨3 / 5, 0, 4 / 5⟩ = Real.pi := by
    have hpi : (MathFns.ofFns Real.sqrt Real.cos Real.sin Real.pi (1 / 10000)).Pi = Real.pi := rfl
    simp only [GGXDivisor, real_LocalTan_example, Math.LocalCos, unitInstance, hpi]
    ring
  obtain ⟨-, hform, hval, -, -⟩ := C11_EvaluateGGXChecked_formula
    (MathFns.ofFns Real.sqrt Real.cos Real.sin Real.pi (1 / 10000))
    (unitInstance : BSDF_CookTorrance ℝ) ⟨3 / 5, 0, 4 / 5⟩
  refine ⟨hdiv, ?_⟩
  rw [hval (by norm_num) (by rw [hdiv]; exact Real.pi_pos.ne.symm), ← hform, hdiv]
  simp [unitInstance]

/-- C13 counterexample: an instance with a texture bound loads parameters
without TexR: Load returns success and the texture is still bound; and a
fresh instance loads parameters with TexR = wood from a registry that resolves
nothing: Load returns success and no texture is bound. -/
theorem C13_Load_texture_counterexample :
    (zeroRoughnessParams.Child "TexR" = none ∧
      (Load texturedInstance zeroRoughnessParams emptyAssets none).1 = true ∧
      (Load texturedInstance zeroRoughnessParams emptyAssets none).2.texR_.isSome = true) ∧
    (texturedParams.Child "TexR" = some (PropValue.str "wood") ∧
      (Load freshInstance texturedParams emptyAssets none).1 = true ∧
      (Load freshInstance texturedParams emptyAssets none).2.texR_.isSome = false) :=
  ⟨⟨rfl, rfl, rfl⟩, ⟨rfl, rfl, rfl⟩⟩

end LM
